import Mathlib

/-!
Verification of the data-access layer in `database.py` (remote SQL execution
client over an HTTP gateway).  Python values, the wire protocol, the decoder
`execute_turso_query`, the repository operations and the JSON
serialization used by `save_scenario` / `load_scenario` are shallowly embedded;
a model of a healthy gateway interprets the fixed SQL templates over an
explicit database state.
-/

set_option maxRecDepth 4096

/-- Model of a Python value as manipulated by the module: `None`, booleans,
integers, strings (sequences of characters), lists, and dicts (association
lists of key/value pairs, kept duplicate-free by construction). -/
inductive PyVal where
  | none
  | bool (b : Bool)
  | int (n : Int)
  | str (s : List Char)
  | list (elems : List PyVal)
  | dict (entries : List (PyVal × PyVal))

/-- Shorthand: the Python string value for a Lean string literal. -/
def pstr (s : String) : PyVal := PyVal.str s.data

/-- Python truthiness (`bool(x)`): `None`, `False`, `0`, empty string, empty
list and empty dict are falsy, everything else truthy. -/
def pyTruthy : PyVal → Bool
  | .none => false
  | .bool b => b
  | .int n => n != 0
  | .str s => !s.isEmpty
  | .list xs => !xs.isEmpty
  | .dict es => !es.isEmpty

/-- Python `==` restricted to hashable scalar values, as used for dict key
lookup (`True == 1` holds in Python; lists and dicts are unhashable so they
never occur as keys in any reachable state). -/
def keyEq : PyVal → PyVal → Bool
  | .none, .none => true
  | .bool a, .bool b => a == b
  | .bool a, .int n => (if a then (1 : Int) else 0) == n
  | .int n, .bool b => n == (if b then (1 : Int) else 0)
  | .int a, .int b => a == b
  | .str a, .str b => a == b
  | _, _ => false

/-- Whether a value may be used as a dict key (Python hashability for this
fragment: lists and dicts are unhashable). -/
def pyHashable : PyVal → Bool
  | .list _ => false
  | .dict _ => false
  | _ => true

/-- Dict lookup: first entry whose key compares equal (entries built by
`insertRep` are duplicate-free, matching a real Python dict). -/
def dictFind : List (PyVal × PyVal) → PyVal → Option PyVal
  | [], _ => Option.none
  | kv :: rest, k => if keyEq kv.1 k then some kv.2 else dictFind rest k

/-- Python `d[k] = v`: replaces the value of an existing equal key in place,
otherwise appends a fresh entry (insertion order preserved). -/
def insertRep (es : List (PyVal × PyVal)) (k v : PyVal) : List (PyVal × PyVal) :=
  if es.any (fun kv => keyEq kv.1 k) then
    es.map (fun kv => if keyEq kv.1 k then (kv.1, v) else kv)
  else es ++ [(k, v)]

/-- Exceptions that can arise in the translated code paths:
`httpx.RequestError`, `httpx.HTTPStatusError`, `json.JSONDecodeError`, the
`Exception` raised on a gateway-reported error (line 46 of `database.py`,
carrying the reported value), and the builtin `KeyError` / `IndexError` /
`TypeError` / `AttributeError` / `ValueError`. -/
inductive PyExc where
  | requestError
  | httpStatusError (status : Nat)
  | jsonDecodeError
  | tursoError (reported : PyVal)
  | keyError
  | indexError
  | typeError
  | attributeError
  | valueError

/-- `x.get(k, default)`: only dicts have `.get`; anything else raises
`AttributeError`. -/
def pyGetD (x k default : PyVal) : Except PyExc PyVal :=
  match x with
  | .dict es => .ok ((dictFind es k).getD default)
  | _ => .error .attributeError

/-- Python `x[i]` for a non-negative integer index: list and string indexing,
integer lookup in a dict, `TypeError` otherwise. -/
def pySubInt (x : PyVal) (i : Nat) : Except PyExc PyVal :=
  match x with
  | .list xs =>
    match xs.get? i with
    | some v => .ok v
    | Option.none => .error .indexError
  | .str s =>
    match s.get? i with
    | some c => .ok (.str [c])
    | Option.none => .error .indexError
  | .dict es =>
    match dictFind es (.int i) with
    | some v => .ok v
    | Option.none => .error .keyError
  | _ => .error .typeError

/-- Python iteration (`for x in y`): lists yield elements, strings yield
one-character strings, dicts yield keys; other values raise `TypeError`. -/
def pyIter (x : PyVal) : Except PyExc (List PyVal)  :=
  match x with
  | .list xs => .ok xs
  | .str s => .ok (s.map (fun c => .str [c]))
  | .dict es => .ok (es.map (fun kv => kv.1))
  | _ => .error .typeError

/-! ### JSON serialization (`json.dumps` / `json.loads`, default options)

`save_scenario` stores `json.dumps(scenario_data)` and `load_scenario` applies
`json.loads` to the stored text.  The default `json.dumps` uses separators
`", "` and `": "`, coerces scalar dict keys to strings, raises `TypeError` on
unhashable keys, and escapes `"` and backslash, the short control escapes, and
(with `ensure_ascii=True`) every character outside printable ASCII as a
4-hex-digit escape (two surrogate escapes above the basic plane). -/

/-- The double-quote character. -/
def qc : Char := Char.ofNat 34

/-- The backslash character. -/
def bsl : Char := Char.ofNat 92

/-- The opening curly-brace character. -/
def lcb : Char := Char.ofNat 123

/-- The closing curly-brace character. -/
def rcb : Char := Char.ofNat 125

/-- Lowercase hexadecimal digit for a value below 16 (also used as decimal
digit for values below 10). -/
def hexDigitChar : Nat → Char
  | 0 => '0' | 1 => '1' | 2 => '2' | 3 => '3' | 4 => '4'
  | 5 => '5' | 6 => '6' | 7 => '7' | 8 => '8' | 9 => '9'
  | 10 => 'a' | 11 => 'b' | 12 => 'c' | 13 => 'd' | 14 => 'e' | _ => 'f'

/-- Four lowercase hex digits of a value below 65536, most significant first. -/
def hex4 (n : Nat) : List Char :=
  [hexDigitChar (n / 4096 % 16), hexDigitChar (n / 256 % 16),
   hexDigitChar (n / 16 % 16), hexDigitChar (n % 16)]

/-- JSON escape of one character under `ensure_ascii=True`. -/
def encChar (c : Char) : List Char :=
  if c = qc then [bsl, qc]
  else if c = bsl then [bsl, bsl]
  else if c = Char.ofNat 10 then [bsl, 'n']
  else if c = Char.ofNat 9 then [bsl, 't']
  else if c = Char.ofNat 13 then [bsl, 'r']
  else if c = Char.ofNat 8 then [bsl, 'b']
  else if c = Char.ofNat 12 then [bsl, 'f']
  else if c.toNat < 32 then bsl :: 'u' :: hex4 c.toNat
  else if c.toNat < 127 then [c]
  else if c.toNat < 65536 then bsl :: 'u' :: hex4 c.toNat
  else (bsl :: 'u' :: hex4 (55296 + (c.toNat - 65536) / 1024)) ++
       (bsl :: 'u' :: hex4 (56320 + (c.toNat - 65536) % 1024))

/-- JSON string literal for a character sequence. -/
def encStr (s : List Char) : List Char :=
  qc :: s.foldr (fun c acc => encChar c ++ acc) [qc]

/-- Little-endian decimal digits of a positive number (fuel-indexed so that
closed values evaluate by reduction; `fuel ≥ n` suffices). -/
def natDigitsRev (fuel : Nat) (n : Nat) : List Nat :=
  match fuel with
  | 0 => []
  | f + 1 => if n = 0 then [] else n % 10 :: natDigitsRev f (n / 10)

/-- Decimal digits of a natural number (`str(n)` for `n ≥ 0`). -/
def encNat (n : Nat) : List Char :=
  if n = 0 then ['0'] else (natDigitsRev n n).reverse.map hexDigitChar

/-- Decimal representation of an integer (`str(i)`). -/
def encInt (i : Int) : List Char :=
  if i < 0 then '-' :: encNat i.natAbs else encNat i.natAbs

/-- Coercion of a dict key by `json.dumps`: string keys are emitted as JSON
strings, integer / boolean / `None` keys are stringified and quoted, and any
other key raises `TypeError` ("keys must be str, int, float, bool or None"). -/
def encKey : PyVal → Except PyExc (List Char)
  | .str s => .ok (encStr s)
  | .int i => .ok (qc :: encInt i ++ [qc])
  | .bool true => .ok (qc :: "true".data ++ [qc])
  | .bool false => .ok (qc :: "false".data ++ [qc])
  | .none => .ok (qc :: "null".data ++ [qc])
  | _ => .error .typeError

mutual

/-- `json.dumps` with its default separators, on the value fragment of the
model. -/
def encVal : PyVal → Except PyExc (List Char)
  | .none => .ok "null".data
  | .bool true => .ok "true".data
  | .bool false => .ok "false".data
  | .int i => .ok (encInt i)
  | .str s => .ok (encStr s)
  | .list xs =>
    match encItems xs with
    | .ok body => .ok ('[' :: body ++ [']'])
    | .error e => .error e
  | .dict es =>
    match encEntries es with
    | .ok body => .ok (lcb :: body ++ [rcb])
    | .error e => .error e

/-- Array items joined by `", "`. -/
def encItems : List PyVal → Except PyExc (List Char)
  | [] => .ok []
  | [x] => encVal x
  | x :: xs =>
    match encVal x, encItems xs with
    | .ok cx, .ok rest => .ok (cx ++ ',' :: ' ' :: rest)
    | .error e, _ => .error e
    | _, .error e => .error e

/-- Object entries `key: value` joined by `", "`. -/
def encEntries : List (PyVal × PyVal) → Except PyExc (List Char)
  | [] => .ok []
  | [(k, v)] =>
    match encKey k, encVal v with
    | .ok ck, .ok cv => .ok (ck ++ ':' :: ' ' :: cv)
    | .error e, _ => .error e
    | _, .error e => .error e
  | (k, v) :: es =>
    match encKey k, encVal v, encEntries es with
    | .ok ck, .ok cv, .ok rest => .ok (ck ++ ':' :: ' ' :: cv ++ ',' :: ' ' :: rest)
    | .error e, _, _ => .error e
    | _, .error e, _ => .error e
    | _, _, .error e => .error e

end

/-- `json.dumps(v)`. -/
def dumps (v : PyVal) : Except PyExc (List Char) := encVal v

/-- JSON whitespace (space, tab, line feed, carriage return). -/
def isWsChar (c : Char) : Bool :=
  c.toNat = 32 || c.toNat = 9 || c.toNat = 10 || c.toNat = 13

/-- Drop leading JSON whitespace. -/
def skipWs : List Char → List Char
  | c :: cs => if isWsChar c then skipWs cs else c :: cs
  | [] => []

/-- Decimal digit test. -/
def isDigitCh (c : Char) : Bool := 48 ≤ c.toNat && c.toNat ≤ 57

/-- Greedily consume decimal digits, folding them onto an accumulator. -/
def parseDigitsAcc (acc : Nat) : List Char → Nat × List Char
  | c :: cs =>
    if isDigitCh c then parseDigitsAcc (acc * 10 + (c.toNat - 48)) cs
    else (acc, c :: cs)
  | [] => (acc, [])

/-- Parse a nonempty digit run. -/
def parseNatTok : List Char → Option (Nat × List Char)
  | c :: cs =>
    if isDigitCh c then some (parseDigitsAcc (c.toNat - 48) cs) else Option.none
  | [] => Option.none

/-- Parse an optionally negated digit run. -/
def parseIntTok : List Char → Option (Int × List Char)
  | c :: cs =>
    if c = '-' then (parseNatTok cs).map (fun p => (-(p.1 : Int), p.2))
    else (parseNatTok (c :: cs)).map (fun p => ((p.1 : Int), p.2))
  | [] => Option.none

/-- Parse a JSON number restricted to the integer fragment of the model: a
trailing fraction or exponent (a float, which the model's value type does not
contain) makes the parse fail. -/
def parseIntJson (cs : List Char) : Option (Int × List Char) :=
  match parseIntTok cs with
  | some (i, r) =>
    match r with
    | c :: _ => if c = '.' || c = 'e' || c = 'E' then Option.none else some (i, r)
    | [] => some (i, r)
  | Option.none => Option.none

/-- Value of a hexadecimal digit (either case). -/
def hexVal : Char → Option Nat :=
  fun c =>
    if 48 ≤ c.toNat && c.toNat ≤ 57 then some (c.toNat - 48)
    else if 97 ≤ c.toNat && c.toNat ≤ 102 then some (c.toNat - 87)
    else if 65 ≤ c.toNat && c.toNat ≤ 70 then some (c.toNat - 55)
    else Option.none

/-- Parse exactly four hex digits into their value. -/
def parseHex4 : List Char → Option (Nat × List Char)
  | h1 :: h2 :: h3 :: h4 :: rest =>
    match hexVal h1, hexVal h2, hexVal h3, hexVal h4 with
    | some a, some b, some c, some d => some (a * 4096 + b * 256 + c * 16 + d, rest)
    | _, _, _, _ => Option.none
  | _ => Option.none

/-- Decode a unicode escape after its two-character marker: four hex digits; a
high-surrogate value must be followed by a low-surrogate escape and the pair
denotes one character above the basic plane; a lone surrogate is rejected
(encoder output never produces one). -/
def parseUEsc : List Char → Option (Char × List Char) :=
  fun cs =>
    match parseHex4 cs with
    | some (n, cs3) =>
      if 55296 ≤ n ∧ n ≤ 56319 then
        match cs3 with
        | b2 :: u2 :: cs4 =>
          if b2 = bsl ∧ u2 = 'u' then
            match parseHex4 cs4 with
            | some (m, cs5) =>
              if 56320 ≤ m ∧ m ≤ 57343 then
                some (Char.ofNat (65536 + (n - 55296) * 1024 + (m - 56320)), cs5)
              else Option.none
            | Option.none => Option.none
          else Option.none
        | _ => Option.none
      else if 56320 ≤ n ∧ n ≤ 57343 then Option.none
      else some (Char.ofNat n, cs3)
    | Option.none => Option.none

/-- Decode one escape sequence after the backslash. -/
def parseEsc : List Char → Option (Char × List Char) :=
  fun cs =>
    match cs with
    | e :: cs2 =>
      if e = qc then some (qc, cs2)
      else if e = bsl then some (bsl, cs2)
      else if e = '/' then some ('/', cs2)
      else if e = 'n' then some (Char.ofNat 10, cs2)
      else if e = 't' then some (Char.ofNat 9, cs2)
      else if e = 'r' then some (Char.ofNat 13, cs2)
      else if e = 'b' then some (Char.ofNat 8, cs2)
      else if e = 'f' then some (Char.ofNat 12, cs2)
      else if e = 'u' then parseUEsc cs2
      else Option.none
    | [] => Option.none

/-- Parse the body of a JSON string literal after the opening quote, returning
the decoded characters and the remainder after the closing quote.  Raw control
characters are rejected, as `json.loads` does in strict mode.  The fuel only
bounds recursion depth; every step consumes at least one input character, so
`input length + 1` is always enough and the callers pass exactly that. -/
def parseStrBody : Nat → List Char → Option (List Char × List Char)
  | 0, _ => Option.none
  | _ + 1, [] => Option.none
  | f + 1, c :: cs =>
    if c = qc then some ([], cs)
    else if c = bsl then
      match parseEsc cs with
      | some (ch, rest) => (parseStrBody f rest).map (fun p => (ch :: p.1, p.2))
      | Option.none => Option.none
    else if c.toNat < 32 then Option.none
    else (parseStrBody f cs).map (fun p => (c :: p.1, p.2))

/-- Build a Python dict from parsed key/value pairs (later duplicate keys
overwrite earlier values, as in `json.loads`). -/
def dictOfPairs (ps : List (PyVal × PyVal)) : List (PyVal × PyVal) :=
  ps.foldl (fun acc kv => insertRep acc kv.1 kv.2) []

mutual

/-- Recursive-descent JSON value parser (fuel-indexed; the fuel strictly
exceeds any nesting the input can describe when chosen as the input length). -/
def parseVal : Nat → List Char → Option (PyVal × List Char)
  | 0, _ => Option.none
  | fuel + 1, s =>
    match skipWs s with
    | [] => Option.none
    | c :: cs =>
      if c = qc then (parseStrBody (cs.length + 1) cs).map (fun p => (PyVal.str p.1, p.2))
      else if c = lcb then
        match skipWs cs with
        | c2 :: r => if c2 = rcb then some (PyVal.dict [], r)
            else (parseEntriesNE fuel cs).map (fun p => (PyVal.dict (dictOfPairs p.1), p.2))
        | [] => Option.none
      else if c = '[' then
        match skipWs cs with
        | c2 :: r => if c2 = ']' then some (PyVal.list [], r)
            else (parseItemsNE fuel cs).map (fun p => (PyVal.list p.1, p.2))
        | [] => Option.none
      else if c = 'n' then
        match cs with
        | 'u' :: 'l' :: 'l' :: r => some (PyVal.none, r)
        | _ => Option.none
      else if c = 't' then
        match cs with
        | 'r' :: 'u' :: 'e' :: r => some (PyVal.bool true, r)
        | _ => Option.none
      else if c = 'f' then
        match cs with
        | 'a' :: 'l' :: 's' :: 'e' :: r => some (PyVal.bool false, r)
        | _ => Option.none
      else (parseIntJson (c :: cs)).map (fun p => (PyVal.int p.1, p.2))

/-- Parse one or more comma-separated array items up to the closing bracket. -/
def parseItemsNE : Nat → List Char → Option (List PyVal × List Char)
  | 0, _ => Option.none
  | fuel + 1, s =>
    match parseVal fuel s with
    | some (v, r) =>
      match skipWs r with
      | c :: r2 =>
        if c = ']' then some ([v], r2)
        else if c = ',' then (parseItemsNE fuel r2).map (fun p => (v :: p.1, p.2))
        else Option.none
      | [] => Option.none
    | Option.none => Option.none

/-- Parse one or more comma-separated `"key": value` entries up to the closing
brace. -/
def parseEntriesNE : Nat → List Char → Option (List (PyVal × PyVal) × List Char)
  | 0, _ => Option.none
  | fuel + 1, s =>
    match skipWs s with
    | c :: cs =>
      if c = qc then
        match parseStrBody (cs.length + 1) cs with
        | some (k, r) =>
          match skipWs r with
          | c1 :: r2 =>
            if c1 = ':' then
              match parseVal fuel r2 with
              | some (v, r3) =>
                match skipWs r3 with
                | c2 :: r4 =>
                  if c2 = rcb then some ([(PyVal.str k, v)], r4)
                  else if c2 = ',' then
                    (parseEntriesNE fuel r4).map (fun p => ((PyVal.str k, v) :: p.1, p.2))
                  else Option.none
                | [] => Option.none
              | Option.none => Option.none
            else Option.none
          | [] => Option.none
        | Option.none => Option.none
      else Option.none
    | [] => Option.none

end

/-- `json.loads(s)`: parse one value, allow only trailing whitespace, raise
`ValueError` otherwise. -/
def loads (s : List Char) : Except PyExc PyVal :=
  match parseVal (s.length + 1) s with
  | some (v, rest) => if (skipWs rest).isEmpty then .ok v else .error .valueError
  | Option.none => .error .valueError

/-! ### Wire protocol and the remote executor (`execute_turso_query`)

One HTTP round trip is abstracted as an outcome: a network-level failure
(`httpx.RequestError` from `client.post`), or a response with a status code and
a body that either parses as JSON (`response.json()`) or does not
(`json.JSONDecodeError`).  A gateway is a function from the statement payload
built on lines 27-30 of `database.py` to an outcome, threading an arbitrary
state (the remote database, a recorded trace, ...). -/

/-- A response body: parsed JSON value, or unparseable text. -/
inductive RespBody where
  | json (v : PyVal)
  | notJson

/-- Outcome of the HTTP POST. -/
inductive HttpOutcome where
  | netError
  | resp (status : Nat) (body : RespBody)

/-- The single statement payload sent per call: the SQL text, and the optional
parameter list (`{"q": query}` or `{"q": query, "params": list(params)}`). -/
structure Stmt where
  q : String
  params : Option (List PyVal)

/-- A gateway with state `σ`: consumes the statement, yields the next state and
the HTTP outcome. -/
structure GW (σ : Type) where
  send : σ → Stmt → σ × HttpOutcome

/-- Requested fetch cardinality (`fetch_mode` is `'none'`, `'one'` or
`'all'`). -/
inductive FetchMode where
  | none
  | one
  | all
deriving DecidableEq

/-- Value returned by `execute_turso_query`: Python `None`, a single row dict,
or a list of row dicts (the empty list returned on line 40 for `'all'` is
`many []`). -/
inductive QueryResult where
  | none
  | one (entries : List (PyVal × PyVal))
  | many (rows : List (List (PyVal × PyVal)))

/-- Lines 39-40 / 63: the value returned when the response or its `results`
entry is falsy (`[]` for `fetch_mode == 'all'`, `None` otherwise). -/
def emptyRes (mode : FetchMode) : Except PyExc QueryResult :=
  match mode with
  | .all => .ok (QueryResult.many [])
  | _ => .ok QueryResult.none

/-- One step of the dict comprehension `{col: <value at i> for i, col in
enumerate(columns)}`: fetch the value for index `i`, then insert under the key
`col` (unhashable keys raise `TypeError`). -/
def buildRowAux (get : Nat → Except PyExc PyVal) :
    List PyVal → Nat → List (PyVal × PyVal) → Except PyExc (List (PyVal × PyVal))
  | [], _, acc => .ok acc
  | col :: cols, i, acc =>
    match get i with
    | .error e => .error e
    | .ok v =>
      if pyHashable col then buildRowAux get cols (i + 1) (insertRep acc col v)
      else .error .typeError

/-- The list comprehension of line 61: one dict per row, re-enumerating
`columns` for each row and indexing the row at each column position. -/
def mapRows (columns : PyVal) : List PyVal → Except PyExc (List (List (PyVal × PyVal)))
  | [] => .ok []
  | row :: rest =>
    match pyIter columns with
    | .error e => .error e
    | .ok colsL =>
      match buildRowAux (fun i => pySubInt row i) colsL 0 [] with
      | .error e => .error e
      | .ok entries =>
        match mapRows columns rest with
        | .error e => .error e
        | .ok rs => .ok (entries :: rs)

/-- Lines 39-63 of `database.py`: classification and decoding of a parsed JSON
response body `result` under the requested fetch cardinality.  Any exception is
returned in the error component (the caller's handlers then swallow it). -/
def decodeResponse (result : PyVal) (mode : FetchMode) : Except PyExc QueryResult :=
  if pyTruthy result then
    match pyGetD result (pstr "results") PyVal.none with
    | .error e => .error e
    | .ok r =>
      if pyTruthy r then
        match pySubInt r 0 with
        | .error e => .error e
        | .ok results_data =>
          match pyGetD results_data (pstr "error") PyVal.none with
          | .error e => .error e
          | .ok errv =>
            if pyTruthy errv then .error (.tursoError errv)
            else
              match mode with
              | .none => .ok QueryResult.none
              | .one =>
                match pyGetD results_data (pstr "columns") (PyVal.list []) with
                | .error e => .error e
                | .ok columns =>
                  match pyGetD results_data (pstr "rows") (PyVal.list []) with
                  | .error e => .error e
                  | .ok rows =>
                    if pyTruthy rows then
                      match pyIter columns with
                      | .error e => .error e
                      | .ok colsL =>
                        match buildRowAux
                            (fun i =>
                              match pySubInt rows 0 with
                              | .error e => .error e
                              | .ok row0 => pySubInt row0 i)
                            colsL 0 [] with
                        | .error e => .error e
                        | .ok entries => .ok (QueryResult.one entries)
                    else .ok QueryResult.none
              | .all =>
                match pyGetD results_data (pstr "columns") (PyVal.list []) with
                | .error e => .error e
                | .ok columns =>
                  match pyGetD results_data (pstr "rows") (PyVal.list []) with
                  | .error e => .error e
                  | .ok rows =>
                    match pyIter rows with
                    | .error e => .error e
                    | .ok rowsL =>
                      match mapRows columns rowsL with
                      | .error e => .error e
                      | .ok rs => .ok (QueryResult.many rs)
      else emptyRes mode
  else emptyRes mode

/-- `response.raise_for_status()` succeeds exactly on 2xx. -/
def is2xx (status : Nat) : Bool := 200 ≤ status && status ≤ 299

/-- The body of the `try` block of `execute_turso_query` for a given HTTP
outcome: each failure is the exception that line would raise. -/
def execOutcome (out : HttpOutcome) (mode : FetchMode) : Except PyExc QueryResult :=
  match out with
  | .netError => .error .requestError
  | .resp status body =>
    if is2xx status then
      match body with
      | .notJson => .error .jsonDecodeError
      | .json v => decodeResponse v mode
    else .error (.httpStatusError status)

/-- `execute_turso_query(query, params, fetch_mode)` against a gateway: build
the single-statement payload, perform the round trip, decode — and, per the
`except` handlers on lines 65-76, report any exception to the Streamlit error
sink and return `None`.  The function itself never lets an exception escape. -/
def execute_turso_query (gw : GW σ) (s : σ) (query : String)
    (params : Option (List PyVal)) (fetch_mode : FetchMode) :
    σ × Except PyExc QueryResult :=
  let sent := gw.send s { q := query, params := params }
  (sent.1,
    match execOutcome sent.2 fetch_mode with
    | .ok r => .ok r
    | .error _ => .ok QueryResult.none)

/-! ### Gateway models -/

/-- A stateless gateway answering every statement with a fixed outcome. -/
def constGW (out : HttpOutcome) : GW Unit :=
  ⟨fun _ _ => ((), out)⟩

/-- A gateway that records the statements it is sent and answers with a fixed
outcome function. -/
def recordGW (f : Stmt → HttpOutcome) : GW (List Stmt) :=
  ⟨fun tr stmt => (tr ++ [stmt], f stmt)⟩

/-- Wrap a gateway so that it also records the statements it is sent. -/
def tracedGW (g : GW σ) : GW (σ × List Stmt) :=
  ⟨fun st stmt =>
    let sent := g.send st.1 stmt
    ((sent.1, st.2 ++ [stmt]), sent.2)⟩

/-! ### A healthy remote store

The remote SQLite database behind the gateway, with the five tables of the
schema.  `healthySend` interprets exactly the SQL templates the module sends,
with SQLite semantics: plain `INSERT` fails with a `UNIQUE constraint failed`
gateway error when the natural key exists, `INSERT OR IGNORE` is a no-op on
conflict, `INSERT OR REPLACE` deletes the conflicting row and appends the new
one, `SELECT` answers with the protocol's `columns` / `rows` envelope. -/

/-- A row of `users`. -/
structure UserRow where
  username : List Char
  password : List Char
  name : List Char

/-- A row of `scenarios` (the payload column holds the stored JSON text). -/
structure ScenarioRow where
  username : List Char
  project_name : List Char
  scenario_name : List Char
  scenario_data : List Char

/-- A row of `user_fluids`. -/
structure FluidRow where
  username : List Char
  fluid_name : List Char
  density : PyVal
  viscosity : PyVal
  vapor_pressure : PyVal

/-- A row of `user_materials`. -/
structure MaterialRow where
  username : List Char
  material_name : List Char
  roughness : PyVal

/-- The remote database state (projects are keyed rows `(username,
project_name)`). -/
structure DBState where
  users : List UserRow
  projects : List (List Char × List Char)
  scenarios : List ScenarioRow
  fluids : List FluidRow
  materials : List MaterialRow

/-- The empty remote database. -/
def emptyDB : DBState := ⟨[], [], [], [], []⟩

/-- A successful write/DDL response (`results` carrying an empty result set). -/
def okEmptyResp : HttpOutcome :=
  .resp 200 (.json (PyVal.dict
    [(pstr "results", PyVal.list
      [PyVal.dict [(pstr "columns", PyVal.list []), (pstr "rows", PyVal.list [])]])]))

/-- A gateway-reported statement error (`results[0].error` carrying the
message). -/
def errResp (msg : String) : HttpOutcome :=
  .resp 200 (.json (PyVal.dict
    [(pstr "results", PyVal.list [PyVal.dict [(pstr "error", pstr msg)]])]))

/-- A successful query response with the given column names and row matrix. -/
def selResp (cols : List String) (rows : List (List PyVal)) : HttpOutcome :=
  .resp 200 (.json (PyVal.dict
    [(pstr "results", PyVal.list
      [PyVal.dict [(pstr "columns", PyVal.list (cols.map pstr)),
                   (pstr "rows", PyVal.list (rows.map PyVal.list))]])]))

/-- SQLite interpretation of the module's SQL templates; statements outside the
templates (DDL, deletes) succeed with an empty result. -/
def healthySend (db : DBState) (stmt : Stmt) : DBState × HttpOutcome :=
  match stmt.q, stmt.params with
  | "INSERT INTO users (username, password, name) VALUES (?, ?, ?)",
    some [PyVal.str u, PyVal.str pw, PyVal.str nm] =>
    if db.users.any (fun r => r.username == u) then
      (db, errResp "UNIQUE constraint failed: users.username")
    else ({ db with users := db.users ++ [⟨u, pw, nm⟩] }, okEmptyResp)
  | "SELECT * FROM users WHERE username = ?", some [PyVal.str u] =>
    (db, selResp ["username", "password", "name"]
      ((db.users.filter (fun r => r.username == u)).map
        (fun r => [PyVal.str r.username, PyVal.str r.password, PyVal.str r.name])))
  | "INSERT OR IGNORE INTO projects (username, project_name) VALUES (?, ?)",
    some [PyVal.str u, PyVal.str p] =>
    if db.projects.any (fun pr => pr.1 == u && pr.2 == p) then (db, okEmptyResp)
    else ({ db with projects := db.projects ++ [(u, p)] }, okEmptyResp)
  | "INSERT OR REPLACE INTO scenarios (username, project_name, scenario_name, scenario_data) VALUES (?, ?, ?, ?)",
    some [PyVal.str u, PyVal.str p, PyVal.str sn, PyVal.str sd] =>
    ({ db with scenarios :=
        (db.scenarios.filter
          (fun r => !(r.username == u && r.project_name == p && r.scenario_name == sn)))
        ++ [⟨u, p, sn, sd⟩] }, okEmptyResp)
  | "SELECT scenario_data FROM scenarios WHERE username = ? AND project_name = ? AND scenario_name = ?",
    some [PyVal.str u, PyVal.str p, PyVal.str sn] =>
    (db, selResp ["scenario_data"]
      ((db.scenarios.filter
          (fun r => r.username == u && r.project_name == p && r.scenario_name == sn)).map
        (fun r => [PyVal.str r.scenario_data])))
  | "SELECT project_name FROM projects WHERE username = ?", some [PyVal.str u] =>
    (db, selResp ["project_name"]
      ((db.projects.filter (fun pr => pr.1 == u)).map (fun pr => [PyVal.str pr.2])))
  | "SELECT scenario_name FROM scenarios WHERE username = ? AND project_name = ?",
    some [PyVal.str u, PyVal.str p] =>
    (db, selResp ["scenario_name"]
      ((db.scenarios.filter (fun r => r.username == u && r.project_name == p)).map
        (fun r => [PyVal.str r.scenario_name])))
  | "INSERT INTO user_fluids (username, fluid_name, density, viscosity, vapor_pressure) VALUES (?, ?, ?, ?, ?)",
    some [PyVal.str u, PyVal.str f, d, v, p] =>
    if db.fluids.any (fun r => r.username == u && r.fluid_name == f) then
      (db, errResp "UNIQUE constraint failed: user_fluids.username, user_fluids.fluid_name")
    else ({ db with fluids := db.fluids ++ [⟨u, f, d, v, p⟩] }, okEmptyResp)
  | "SELECT fluid_name, density, viscosity, vapor_pressure FROM user_fluids WHERE username = ?",
    some [PyVal.str u] =>
    (db, selResp ["fluid_name", "density", "viscosity", "vapor_pressure"]
      ((db.fluids.filter (fun r => r.username == u)).map
        (fun r => [PyVal.str r.fluid_name, r.density, r.viscosity, r.vapor_pressure])))
  | "INSERT INTO user_materials (username, material_name, roughness) VALUES (?, ?, ?)",
    some [PyVal.str u, PyVal.str m, rg] =>
    if db.materials.any (fun r => r.username == u && r.material_name == m) then
      (db, errResp "UNIQUE constraint failed: user_materials.username, user_materials.material_name")
    else ({ db with materials := db.materials ++ [⟨u, m, rg⟩] }, okEmptyResp)
  | "SELECT material_name, roughness FROM user_materials WHERE username = ?",
    some [PyVal.str u] =>
    (db, selResp ["material_name", "roughness"]
      ((db.materials.filter (fun r => r.username == u)).map
        (fun r => [PyVal.str r.material_name, r.roughness])))
  | _, _ => (db, okEmptyResp)

/-- The healthy gateway. -/
def healthyGW : GW DBState := ⟨healthySend⟩

/-! ### Repository operations (`database.py` lines 78-236)

Each operation is a thin composition over `execute_turso_query` with its exact
SQL template and fetch cardinality.  Functions that may let an exception escape
return it in the error component; functions with `try`/`except` translate the
handler explicitly. -/

/-- `needle` occurs as a contiguous substring of `hay` (`in` on Python
strings). -/
def leadsWith : List Char → List Char → Bool
  | [], _ => true
  | _ :: _, [] => false
  | a :: as, b :: bs2 => a == b && leadsWith as bs2

/-- Substring containment, used by the `"UNIQUE constraint failed" in str(e)`
checks. -/
def containsSub : List Char → List Char → Bool
  | hay, needle =>
    if leadsWith needle hay then true
    else
      match hay with
      | [] => false
      | _ :: t => containsSub t needle

/-- Python `str()` of a value, as interpolated into the line-46 message.  Only
the string case is ever reachable (the gateway reports errors as strings);
container renderings are abbreviated. -/
def pyStrOf : PyVal → List Char
  | .str s => s
  | .int i => encInt i
  | .bool true => "True".data
  | .bool false => "False".data
  | .none => "None".data
  | .list _ => ['[', ']']
  | .dict _ => [lcb, rcb]

/-- `str(e)` for the exceptions the module can raise; the only message content
the module ever inspects is the line-46 `f"Erro no Turso: {...}"` text. -/
def excText : PyExc → List Char
  | .tursoError v => "Erro no Turso: ".data ++ pyStrOf v
  | _ => []

/-- `get_user(username)` (line 137): fetch one row by primary key and return it
unchanged. -/
def get_user (gw : GW σ) (s : σ) (username : List Char) :
    σ × Except PyExc QueryResult :=
  execute_turso_query gw s "SELECT * FROM users WHERE username = ?"
    (some [PyVal.str username]) FetchMode.one

/-- `add_user(username, password, name)` (line 141): insert inside `try`,
return `True`; the bare `except` returns `False` on any exception. -/
def add_user (gw : GW σ) (s : σ) (username password name : List Char) :
    σ × Except PyExc Bool :=
  let sent := execute_turso_query gw s
    "INSERT INTO users (username, password, name) VALUES (?, ?, ?)"
    (some [PyVal.str username, PyVal.str password, PyVal.str name]) FetchMode.none
  (sent.1,
    match sent.2 with
    | .ok _ => .ok true
    | .error _ => .ok false)

/-- `save_scenario(username, project_name, scenario_name, scenario_data)`
(line 150): insert-or-ignore the project row, then `json.dumps` the payload
(a `TypeError` here escapes with the first write already performed), then
insert-or-replace the scenario row. -/
def save_scenario (gw : GW σ) (s : σ)
    (username project_name scenario_name : List Char) (scenario_data : PyVal) :
    σ × Except PyExc Unit :=
  let first := execute_turso_query gw s
    "INSERT OR IGNORE INTO projects (username, project_name) VALUES (?, ?)"
    (some [PyVal.str username, PyVal.str project_name]) FetchMode.none
  match dumps scenario_data with
  | .error e => (first.1, .error e)
  | .ok data_json =>
    let second := execute_turso_query gw first.1
      "INSERT OR REPLACE INTO scenarios (username, project_name, scenario_name, scenario_data) VALUES (?, ?, ?, ?)"
      (some [PyVal.str username, PyVal.str project_name, PyVal.str scenario_name,
             PyVal.str data_json]) FetchMode.none
    (second.1, .ok ())

/-- `load_scenario(username, project_name, scenario_name)` (line 161): fetch
one row; if the result is truthy and has a `scenario_data` key, `json.loads`
the stored text (propagating its exceptions), else return `None`. -/
def load_scenario (gw : GW σ) (s : σ)
    (username project_name scenario_name : List Char) :
    σ × Except PyExc (Option PyVal) :=
  let sent := execute_turso_query gw s
    "SELECT scenario_data FROM scenarios WHERE username = ? AND project_name = ? AND scenario_name = ?"
    (some [PyVal.str username, PyVal.str project_name, PyVal.str scenario_name])
    FetchMode.one
  (sent.1,
    match sent.2 with
    | .error e => .error e
    | .ok (QueryResult.one entries) =>
      if pyTruthy (PyVal.dict entries)
          && (dictFind entries (pstr "scenario_data")).isSome then
        match dictFind entries (pstr "scenario_data") with
        | some (PyVal.str txt) =>
          match loads txt with
          | .ok v => .ok (some v)
          | .error e => .error e
        | some _ => .error .typeError
        | Option.none => .error .keyError
      else .ok Option.none
    | .ok _ => .ok Option.none)

/-- The comprehension `[row[key] for row in rows]` (missing keys raise
`KeyError`). -/
def mapKey (key : PyVal) : List (List (PyVal × PyVal)) → Except PyExc (List PyVal)
  | [] => .ok []
  | row :: rest =>
    match dictFind row key with
    | some v =>
      match mapKey key rest with
      | .ok vs => .ok (v :: vs)
      | .error e => .error e
    | Option.none => .error .keyError

/-- `get_user_projects(username)` (line 171): fetch all, then
`[row['project_name'] for row in results] if results else []`. -/
def get_user_projects (gw : GW σ) (s : σ) (username : List Char) :
    σ × Except PyExc (List PyVal) :=
  let sent := execute_turso_query gw s
    "SELECT project_name FROM projects WHERE username = ?"
    (some [PyVal.str username]) FetchMode.all
  (sent.1,
    match sent.2 with
    | .error e => .error e
    | .ok (QueryResult.many rows) =>
      if rows.isEmpty then .ok [] else mapKey (pstr "project_name") rows
    | .ok _ => .ok [])

/-- `get_scenarios_for_project(username, project_name)` (line 175). -/
def get_scenarios_for_project (gw : GW σ) (s : σ)
    (username project_name : List Char) : σ × Except PyExc (List PyVal) :=
  let sent := execute_turso_query gw s
    "SELECT scenario_name FROM scenarios WHERE username = ? AND project_name = ?"
    (some [PyVal.str username, PyVal.str project_name]) FetchMode.all
  (sent.1,
    match sent.2 with
    | .error e => .error e
    | .ok (QueryResult.many rows) =>
      if rows.isEmpty then .ok [] else mapKey (pstr "scenario_name") rows
    | .ok _ => .ok [])

/-- `delete_scenario(username, project_name, scenario_name)` (line 183). -/
def delete_scenario (gw : GW σ) (s : σ)
    (username project_name scenario_name : List Char) :
    σ × Except PyExc QueryResult :=
  execute_turso_query gw s
    "DELETE FROM scenarios WHERE username = ? AND project_name = ? AND scenario_name = ?"
    (some [PyVal.str username, PyVal.str project_name, PyVal.str scenario_name])
    FetchMode.none

/-- `add_user_fluid(...)` (line 194): insert inside `try`, return `True`; the
handler returns `False` when `"UNIQUE constraint failed"` occurs in `str(e)`
and re-raises any other exception. -/
def add_user_fluid (gw : GW σ) (s : σ) (username fluid_name : List Char)
    (density viscosity vapor_pressure : PyVal) : σ × Except PyExc Bool :=
  let sent := execute_turso_query gw s
    "INSERT INTO user_fluids (username, fluid_name, density, viscosity, vapor_pressure) VALUES (?, ?, ?, ?, ?)"
    (some [PyVal.str username, PyVal.str fluid_name, density, viscosity,
           vapor_pressure]) FetchMode.none
  (sent.1,
    match sent.2 with
    | .ok _ => .ok true
    | .error e =>
      if containsSub (excText e) "UNIQUE constraint failed".data then .ok false
      else .error e)

/-- The comprehension of line 210: a dict keyed by `row['fluid_name']` mapping
to the `rho` / `nu` / `pv_kpa` attribute record. -/
def buildFluidMap (acc : List (PyVal × PyVal)) :
    List (List (PyVal × PyVal)) → Except PyExc (List (PyVal × PyVal))
  | [] => .ok acc
  | row :: rest =>
    match dictFind row (pstr "density") with
    | Option.none => .error .keyError
    | some d =>
      match dictFind row (pstr "viscosity") with
      | Option.none => .error .keyError
      | some v =>
        match dictFind row (pstr "vapor_pressure") with
        | Option.none => .error .keyError
        | some p =>
          match dictFind row (pstr "fluid_name") with
          | Option.none => .error .keyError
          | some fn =>
            if pyHashable fn then
              buildFluidMap
                (insertRep acc fn (PyVal.dict
                  [(pstr "rho", d), (pstr "nu", v), (pstr "pv_kpa", p)])) rest
            else .error .typeError

/-- `get_user_fluids(username)` (line 207): fetch all; a truthy result is
turned into the name-keyed mapping, otherwise `{}` is returned. -/
def get_user_fluids (gw : GW σ) (s : σ) (username : List Char) :
    σ × Except PyExc (List (PyVal × PyVal)) :=
  let sent := execute_turso_query gw s
    "SELECT fluid_name, density, viscosity, vapor_pressure FROM user_fluids WHERE username = ?"
    (some [PyVal.str username]) FetchMode.all
  (sent.1,
    match sent.2 with
    | .error e => .error e
    | .ok (QueryResult.many rows) =>
      if rows.isEmpty then .ok [] else buildFluidMap [] rows
    | .ok _ => .ok [])

/-- `delete_user_fluid(username, fluid_name)` (line 213). -/
def delete_user_fluid (gw : GW σ) (s : σ) (username fluid_name : List Char) :
    σ × Except PyExc QueryResult :=
  execute_turso_query gw s
    "DELETE FROM user_fluids WHERE username = ? AND fluid_name = ?"
    (some [PyVal.str username, PyVal.str fluid_name]) FetchMode.none

/-- `add_user_material(...)` (line 217): same shape as `add_user_fluid`. -/
def add_user_material (gw : GW σ) (s : σ) (username material_name : List Char)
    (roughness : PyVal) : σ × Except PyExc Bool :=
  let sent := execute_turso_query gw s
    "INSERT INTO user_materials (username, material_name, roughness) VALUES (?, ?, ?)"
    (some [PyVal.str username, PyVal.str material_name, roughness]) FetchMode.none
  (sent.1,
    match sent.2 with
    | .ok _ => .ok true
    | .error e =>
      if containsSub (excText e) "UNIQUE constraint failed".data then .ok false
      else .error e)

/-- The comprehension of line 232: material name to roughness. -/
def buildMaterialMap (acc : List (PyVal × PyVal)) :
    List (List (PyVal × PyVal)) → Except PyExc (List (PyVal × PyVal))
  | [] => .ok acc
  | row :: rest =>
    match dictFind row (pstr "roughness") with
    | Option.none => .error .keyError
    | some rg =>
      match dictFind row (pstr "material_name") with
      | Option.none => .error .keyError
      | some mn =>
        if pyHashable mn then buildMaterialMap (insertRep acc mn rg) rest
        else .error .typeError

/-- `get_user_materials(username)` (line 229). -/
def get_user_materials (gw : GW σ) (s : σ) (username : List Char) :
    σ × Except PyExc (List (PyVal × PyVal)) :=
  let sent := execute_turso_query gw s
    "SELECT material_name, roughness FROM user_materials WHERE username = ?"
    (some [PyVal.str username]) FetchMode.all
  (sent.1,
    match sent.2 with
    | .error e => .error e
    | .ok (QueryResult.many rows) =>
      if rows.isEmpty then .ok [] else buildMaterialMap [] rows
    | .ok _ => .ok [])

/-! ### Schema setup (`setup_database`, line 78) -/

/-- First table statement of `setup_database` (exact text). -/
def setupQuery1 : String :=
  "\n        CREATE TABLE IF NOT EXISTS users (\n            username TEXT PRIMARY KEY,\n            password TEXT NOT NULL,\n            name TEXT NOT NULL\n        );\n        "

/-- Second table statement of `setup_database` (exact text). -/
def setupQuery2 : String :=
  "\n        CREATE TABLE IF NOT EXISTS projects (\n            id INTEGER PRIMARY KEY AUTOINCREMENT,\n            username TEXT NOT NULL,\n            project_name TEXT NOT NULL,\n            FOREIGN KEY (username) REFERENCES users (username),\n            UNIQUE (username, project_name)\n        );\n        "

/-- Third table statement of `setup_database` (exact text). -/
def setupQuery3 : String :=
  "\n        CREATE TABLE IF NOT EXISTS scenarios (\n            id INTEGER PRIMARY KEY AUTOINCREMENT,\n            username TEXT NOT NULL,\n            project_name TEXT NOT NULL,\n            scenario_name TEXT NOT NULL,\n            scenario_data TEXT NOT NULL,\n            FOREIGN KEY (username) REFERENCES users (username),\n            FOREIGN KEY (project_name) REFERENCES projects (project_name),\n            UNIQUE (username, project_name, scenario_name)\n        );\n        "

/-- Fourth table statement of `setup_database` (exact text). -/
def setupQuery4 : String :=
  "\n        CREATE TABLE IF NOT EXISTS user_fluids (\n            id INTEGER PRIMARY KEY AUTOINCREMENT,\n            username TEXT NOT NULL,\n            fluid_name TEXT NOT NULL,\n            density REAL NOT NULL,\n            viscosity REAL NOT NULL,\n            vapor_pressure REAL NOT NULL,\n            FOREIGN KEY (username) REFERENCES users (username),\n            UNIQUE (username, fluid_name)\n        );\n        "

/-- Fifth table statement of `setup_database` (exact text). -/
def setupQuery5 : String :=
  "\n        CREATE TABLE IF NOT EXISTS user_materials (\n            id INTEGER PRIMARY KEY AUTOINCREMENT,\n            username TEXT NOT NULL,\n            material_name TEXT NOT NULL,\n            roughness REAL NOT NULL,\n            FOREIGN KEY (username) REFERENCES users (username),\n            UNIQUE (username, material_name)\n        );\n        "

/-- The `for query in queries` loop: each statement goes through
`execute_turso_query` with no parameters and default `fetch_mode='none'`; an
uncaught exception would abort the loop and escape. -/
def runQueries (gw : GW σ) : σ → List String → σ × Except PyExc Unit
  | s, [] => (s, .ok ())
  | s, q :: qs =>
    let sent := execute_turso_query gw s q Option.none FetchMode.none
    match sent.2 with
    | .error e => (sent.1, .error e)
    | .ok _ => runQueries gw sent.1 qs

/-- `setup_database()`: issue the five `CREATE TABLE IF NOT EXISTS` statements
in order. -/
def setup_database (gw : GW σ) (s : σ) : σ × Except PyExc Unit :=
  runQueries gw s [setupQuery1, setupQuery2, setupQuery3, setupQuery4, setupQuery5]

/-! ### Auxiliary predicates and measures used by the statements and proofs -/

mutual

/-- Structural size of a value (drives the parser-fuel accounting). -/
def sizeV : PyVal → Nat
  | .none => 1
  | .bool _ => 1
  | .int _ => 1
  | .str _ => 1
  | .list xs => 1 + sizeL xs
  | .dict es => 1 + sizeE es

/-- Structural size of an item list. -/
def sizeL : List PyVal → Nat
  | [] => 0
  | x :: xs => 1 + sizeV x + sizeL xs

/-- Structural size of an entry list (keys are parsed inline and need no
fuel). -/
def sizeE : List (PyVal × PyVal) → Nat
  | [] => 0
  | (_, v) :: es => 1 + sizeV v + sizeE es

end

/-- Keys of an entry list are strings and pairwise distinct (a value
satisfying this denotes an actual Python dict whose JSON text reparses to the
same entry list). -/
def entriesOk : List (PyVal × PyVal) → Bool
  | [] => true
  | (k, _) :: es =>
    (match k with | .str _ => true | _ => false) &&
    (es.all (fun kv => !(keyEq kv.1 k))) && entriesOk es

mutual

/-- The value denotes a Python structure of string-keyed dicts, lists, ints,
strings, booleans and `None`: the fragment on which `json.dumps` is the
identity-preserving transport (no key coercion). -/
def jsonableV : PyVal → Bool
  | .none => true
  | .bool _ => true
  | .int _ => true
  | .str _ => true
  | .list xs => jsonableL xs
  | .dict es => entriesOk es && jsonableE es

/-- All items jsonable. -/
def jsonableL : List PyVal → Bool
  | [] => true
  | x :: xs => jsonableV x && jsonableL xs

/-- All entry values jsonable. -/
def jsonableE : List (PyVal × PyVal) → Bool
  | [] => true
  | (_, v) :: es => jsonableV v && jsonableE es

end

/-- The continuation after an encoded number must not extend the number
token. -/
def numBoundary : List Char → Prop
  | [] => True
  | c :: _ => isDigitCh c = false ∧ c ≠ '.' ∧ c ≠ 'e' ∧ c ≠ 'E'

/-- The response's embedded statement envelope is absent or empty: the parsed
body is falsy, or it is a dict whose `results` entry is absent or falsy. -/
def envEmpty (v : PyVal) : Prop :=
  pyTruthy v = false ∨
    ∃ es, v = PyVal.dict es ∧
      pyTruthy ((dictFind es (pstr "results")).getD PyVal.none) = false

/-- A response whose embedded result carries rows but no column list. -/
def missingColsResp (rows : List PyVal) : PyVal :=
  PyVal.dict [(pstr "results",
    PyVal.list [PyVal.dict [(pstr "rows", PyVal.list rows)]])]

/-- The row dict the decoder builds for one `user_fluids` row. -/
def fluidRowDict (r : FluidRow) : List (PyVal × PyVal) :=
  [(pstr "fluid_name", PyVal.str r.fluid_name), (pstr "density", r.density),
   (pstr "viscosity", r.viscosity), (pstr "vapor_pressure", r.vapor_pressure)]

/-- The attribute record `get_user_fluids` stores under the fluid name. -/
def fluidRec (r : FluidRow) : PyVal :=
  PyVal.dict [(pstr "rho", r.density), (pstr "nu", r.viscosity),
              (pstr "pv_kpa", r.vapor_pressure)]

/-- Model of Python `==` (deep equality: order-insensitive on dicts, key
lookup by hashable-key equality), fuel-indexed. -/
def pyEqFuel : Nat → PyVal → PyVal → Bool
  | 0, _, _ => false
  | fuel + 1, a, b =>
    match a, b with
    | .none, .none => true
    | .bool x, .bool y => x == y
    | .bool x, .int y => (if x then (1 : Int) else 0) == y
    | .int x, .bool y => x == (if y then (1 : Int) else 0)
    | .int x, .int y => x == y
    | .str x, .str y => x == y
    | .list xs, .list ys =>
      xs.length == ys.length &&
        (List.zip xs ys).all (fun p2 => pyEqFuel fuel p2.1 p2.2)
    | .dict xs, .dict ys =>
      xs.length == ys.length &&
        xs.all (fun kv =>
          match dictFind ys kv.1 with
          | some w => pyEqFuel fuel kv.2 w
          | Option.none => false)
    | _, _ => false

/-! ### General executor lemmas -/

theorem exec_result_swallow (gw : GW σ) (s : σ) (q : String)
    (ps : Option (List PyVal)) (mode : FetchMode) (e : PyExc)
    (h : execOutcome (gw.send s ⟨q, ps⟩).2 mode = .error e) :
    (execute_turso_query gw s q ps mode).2 = Except.ok QueryResult.none := by
  simp only [execute_turso_query, h]

theorem exec_result_ok (gw : GW σ) (s : σ) (q : String)
    (ps : Option (List PyVal)) (mode : FetchMode) (r : QueryResult)
    (h : execOutcome (gw.send s ⟨q, ps⟩).2 mode = .ok r) :
    (execute_turso_query gw s q ps mode).2 = Except.ok r := by
  simp only [execute_turso_query, h]

theorem exec_never_raises (gw : GW σ) (s : σ) (q : String)
    (ps : Option (List PyVal)) (mode : FetchMode) :
    ∃ r, (execute_turso_query gw s q ps mode).2 = Except.ok r := by
  cases h : execOutcome (gw.send s ⟨q, ps⟩).2 mode with
  | ok r => exact ⟨r, exec_result_ok gw s q ps mode r h⟩
  | error e => exact ⟨QueryResult.none, exec_result_swallow gw s q ps mode e h⟩

/-- C1 (corrected): a network-level failure, a non-2xx HTTP status, and a
non-JSON response body do not propagate to the caller of `execute_turso_query`:
the `except` handlers on lines 65-76 convert each of them into the normal
return value `None` (here `QueryResult.none`), for every query, parameter list
and fetch mode. -/
theorem transport_failures_swallowed (σ : Type) (gw : GW σ) (s : σ)
    (q : String) (ps : Option (List PyVal)) (mode : FetchMode)
    (status : Nat) (body : RespBody) :
    ((gw.send s ⟨q, ps⟩).2 = HttpOutcome.netError →
      (execute_turso_query gw s q ps mode).2 = Except.ok QueryResult.none) ∧
    ((gw.send s ⟨q, ps⟩).2 = HttpOutcome.resp status body → is2xx status = false →
      (execute_turso_query gw s q ps mode).2 = Except.ok QueryResult.none) ∧
    ((gw.send s ⟨q, ps⟩).2 = HttpOutcome.resp status RespBody.notJson →
      is2xx status = true →
      (execute_turso_query gw s q ps mode).2 = Except.ok QueryResult.none) := by
  refine ⟨fun h => ?_, fun h h2 => ?_, fun h h2 => ?_⟩
  · exact exec_result_swallow gw s q ps mode .requestError (by rw [h]; rfl)
  · exact exec_result_swallow gw s q ps mode (.httpStatusError status)
      (by rw [h]; simp [execOutcome, h2])
  · exact exec_result_swallow gw s q ps mode .jsonDecodeError
      (by rw [h]; simp [execOutcome, h2])

/-- Witness for C1 at a concrete gateway, query and fetch mode. -/
theorem transport_failures_swallowed_witness :
    (execute_turso_query (constGW HttpOutcome.netError) ()
      "SELECT project_name FROM projects WHERE username = ?"
      (some [pstr "u"]) FetchMode.all).2 = Except.ok QueryResult.none :=
  (transport_failures_swallowed Unit (constGW HttpOutcome.netError) ()
    "SELECT project_name FROM projects WHERE username = ?"
    (some [pstr "u"]) FetchMode.all 200 RespBody.notJson).1 rfl

/-- C1 counterexample: on concrete inputs a network failure, a 500 status and
an unparseable body each make `execute_turso_query` return the ordinary value
`None` instead of failing the call with an error. -/
theorem transport_failures_counterexample :
    (execute_turso_query (constGW HttpOutcome.netError) () "SELECT 1"
      Option.none FetchMode.one).2 = Except.ok QueryResult.none ∧
    (execute_turso_query (constGW (HttpOutcome.resp 500 (RespBody.json (pstr "oops")))) ()
      "SELECT 1" Option.none FetchMode.one).2 = Except.ok QueryResult.none ∧
    (execute_turso_query (constGW (HttpOutcome.resp 200 RespBody.notJson)) ()
      "SELECT 1" Option.none FetchMode.one).2 = Except.ok QueryResult.none :=
  ⟨rfl, rfl, rfl⟩

/-- C2 (code bug): a response whose embedded statement result carries an
explicit error indicator makes the decoder fail with the gateway message
(line 46 raises), but the handler on lines 74-76 of the very same function
catches that exception, so the caller of the executor receives the normal
value `None` and the error never reaches it. -/
theorem gateway_error_raised_then_swallowed :
    decodeResponse (PyVal.dict [(pstr "results", PyVal.list [PyVal.dict
        [(pstr "error", pstr "UNIQUE constraint failed: user_fluids.username, user_fluids.fluid_name")]])])
      FetchMode.none =
      Except.error (PyExc.tursoError
        (pstr "UNIQUE constraint failed: user_fluids.username, user_fluids.fluid_name")) ∧
    (execute_turso_query
      (constGW (errResp "UNIQUE constraint failed: user_fluids.username, user_fluids.fluid_name")) ()
      "INSERT INTO user_fluids (username, fluid_name, density, viscosity, vapor_pressure) VALUES (?, ?, ?, ?, ?)"
      (some [pstr "u", pstr "glycol", PyVal.int 1, PyVal.int 2, PyVal.int 3])
      FetchMode.none).2 = Except.ok QueryResult.none :=
  ⟨rfl, rfl⟩

/-- C3 (code bug): `add_user_fluid` called twice with the same
(username, fluid_name) against a healthy store returns `True` BOTH times,
because the UNIQUE-violation error raised inside `execute_turso_query` is
swallowed there (lines 74-76) and the `except` branch of `add_user_fluid`
(lines 201-205) is unreachable; the stored attributes do remain those of the
first call. -/
theorem add_user_fluid_twice_true_true :
    (add_user_fluid healthyGW emptyDB "maria".data "glycol".data
      (PyVal.int 1050) (PyVal.int 2) (PyVal.int 3)).2 = Except.ok true ∧
    (add_user_fluid healthyGW
      (add_user_fluid healthyGW emptyDB "maria".data "glycol".data
        (PyVal.int 1050) (PyVal.int 2) (PyVal.int 3)).1
      "maria".data "glycol".data
      (PyVal.int 9999) (PyVal.int 8) (PyVal.int 7)).2 = Except.ok true ∧
    (add_user_fluid healthyGW
      (add_user_fluid healthyGW emptyDB "maria".data "glycol".data
        (PyVal.int 1050) (PyVal.int 2) (PyVal.int 3)).1
      "maria".data "glycol".data
      (PyVal.int 9999) (PyVal.int 8) (PyVal.int 7)).1.fluids =
      [⟨"maria".data, "glycol".data, PyVal.int 1050, PyVal.int 2, PyVal.int 3⟩] :=
  ⟨rfl, rfl, rfl⟩

/-- helper: decode with empty columns, fetch all -/
theorem mapRows_nilcols (rows : List PyVal) :
    mapRows (PyVal.list []) rows = Except.ok (rows.map (fun _ => [])) := by
  induction rows with
  | nil => rfl
  | cons r t ih => simp [mapRows, pyIter, buildRowAux, ih]

/-- C4 (corrected): a 2xx response with rows present but the column list
absent does NOT fail: `.get('columns', [])` on line 51 silently defaults to
an empty column list, so fetch mode `one` returns an empty row dict and
fetch mode `all` returns one empty dict per row, and the executor returns
these as ordinary values. -/
theorem missing_columns_silent_empty (rows : List PyVal) (h : rows ≠ []) :
    decodeResponse (missingColsResp rows) FetchMode.one =
      Except.ok (QueryResult.one []) ∧
    decodeResponse (missingColsResp rows) FetchMode.all =
      Except.ok (QueryResult.many (rows.map (fun _ => []))) ∧
    (execute_turso_query (constGW (HttpOutcome.resp 200 (RespBody.json (missingColsResp rows))))
      () "SELECT scenario_name FROM scenarios WHERE username = ? AND project_name = ?"
      (some [pstr "u", pstr "p"]) FetchMode.one).2 = Except.ok (QueryResult.one []) := by
  obtain ⟨r, t, rfl⟩ : ∃ r t, rows = r :: t := by
    cases rows with
    | nil => exact absurd rfl h
    | cons r t => exact ⟨r, t, rfl⟩
  refine ⟨?_, ?_, ?_⟩
  · rfl
  · show decodeResponse (missingColsResp (r :: t)) FetchMode.all = _
    simp only [decodeResponse, missingColsResp]
    norm_num [pyTruthy, pyGetD, dictFind, keyEq, pySubInt, pyIter, mapRows_nilcols, pstr]
  · rfl

/-- C4 counterexample: a concrete response with one row and no `columns` key
decodes to an empty row dict under fetch mode `one` and the executor call
returns it as an ordinary value, not a decode error. -/
theorem missing_columns_counterexample :
    decodeResponse (missingColsResp [PyVal.list [PyVal.int 7]]) FetchMode.one =
      Except.ok (QueryResult.one []) ∧
    (execute_turso_query
      (constGW (HttpOutcome.resp 200 (RespBody.json (missingColsResp [PyVal.list [PyVal.int 7]]))))
      () "SELECT project_name FROM projects WHERE username = ?" (some [pstr "u"])
      FetchMode.one).2 = Except.ok (QueryResult.one []) :=
  ⟨rfl, rfl⟩

/-- C5 (confirmed): whenever the parsed response envelope is absent or empty
(falsy body, or missing/falsy `results` entry), the decoder returns `None`
for fetch mode `none`, `None` (absence marker) for `one`, and the empty list
for `all` - and never raises (line 39-40 of `database.py`). -/
theorem empty_envelope_decodes_empty (v : PyVal) (h : envEmpty v) :
    decodeResponse v FetchMode.none = Except.ok QueryResult.none ∧
    decodeResponse v FetchMode.one = Except.ok QueryResult.none ∧
    decodeResponse v FetchMode.all = Except.ok (QueryResult.many []) := by
  have main : ∀ mode, decodeResponse v mode = emptyRes mode := by
    intro mode
    rcases h with h | ⟨es, rfl, h⟩
    · simp [decodeResponse, h]
    · cases ht : pyTruthy (PyVal.dict es) with
      | false => simp [decodeResponse, ht]
      | true => simp [decodeResponse, ht, pyGetD, h]
  exact ⟨main FetchMode.none, main FetchMode.one, main FetchMode.all⟩

/-- Witness for C5 at the concrete envelope with an empty `results` list. -/
theorem empty_envelope_decodes_empty_witness :
    decodeResponse (PyVal.dict [(pstr "results", PyVal.list [])]) FetchMode.none =
      Except.ok QueryResult.none ∧
    decodeResponse (PyVal.dict [(pstr "results", PyVal.list [])]) FetchMode.one =
      Except.ok QueryResult.none ∧
    decodeResponse (PyVal.dict [(pstr "results", PyVal.list [])]) FetchMode.all =
      Except.ok (QueryResult.many []) :=
  empty_envelope_decodes_empty (PyVal.dict [(pstr "results", PyVal.list [])])
    (Or.inr ⟨[(pstr "results", PyVal.list [])], rfl, rfl⟩)

/-- C10 (corrected): the four collection-returning reads return the same
empty list/mapping on every executor failure as on a genuinely empty store -
failure is indistinguishable from absence of data; but they are NOT total:
the claimed never-raises part fails on malformed row dicts (see the
counterexample). -/
theorem reads_empty_on_executor_failure (out : HttpOutcome) (u p : List Char)
    (h : ∃ e, execOutcome out FetchMode.all = Except.error e) :
    (get_user_projects (constGW out) () u).2 = Except.ok [] ∧
    (get_scenarios_for_project (constGW out) () u p).2 = Except.ok [] ∧
    (get_user_fluids (constGW out) () u).2 = Except.ok [] ∧
    (get_user_materials (constGW out) () u).2 = Except.ok [] ∧
    (get_user_projects healthyGW emptyDB u).2 = Except.ok [] ∧
    (get_scenarios_for_project healthyGW emptyDB u p).2 = Except.ok [] ∧
    (get_user_fluids healthyGW emptyDB u).2 = Except.ok [] ∧
    (get_user_materials healthyGW emptyDB u).2 = Except.ok [] := by
  obtain ⟨e, he⟩ := h
  have hswal : ∀ (q : String) (ps : Option (List PyVal)),
      (execute_turso_query (constGW out) () q ps FetchMode.all).2 =
        Except.ok QueryResult.none :=
    fun q ps => exec_result_swallow (constGW out) () q ps FetchMode.all e he
  refine ⟨?_, ?_, ?_, ?_, rfl, rfl, rfl, rfl⟩
  · simp [get_user_projects, hswal]
  · simp [get_scenarios_for_project, hswal]
  · simp [get_user_fluids, hswal]
  · simp [get_user_materials, hswal]

/-- Witness for C10 at a concrete failing gateway. -/
theorem reads_empty_on_executor_failure_witness :
    (get_user_projects (constGW HttpOutcome.netError) () "u".data).2 = Except.ok [] ∧
    (get_scenarios_for_project (constGW HttpOutcome.netError) () "u".data "p".data).2 = Except.ok [] ∧
    (get_user_fluids (constGW HttpOutcome.netError) () "u".data).2 = Except.ok [] ∧
    (get_user_materials (constGW HttpOutcome.netError) () "u".data).2 = Except.ok [] ∧
    (get_user_projects healthyGW emptyDB "u".data).2 = Except.ok [] ∧
    (get_scenarios_for_project healthyGW emptyDB "u".data "p".data).2 = Except.ok [] ∧
    (get_user_fluids healthyGW emptyDB "u".data).2 = Except.ok [] ∧
    (get_user_materials healthyGW emptyDB "u".data).2 = Except.ok [] :=
  reads_empty_on_executor_failure HttpOutcome.netError "u".data "p".data
    ⟨PyExc.requestError, rfl⟩

/-- C10 counterexample: `get_user_projects` raises `KeyError` when the
gateway answers 2xx with a well-formed envelope whose column list lacks
`project_name` (line 173 subscripts each row dict without a default). -/
theorem get_user_projects_raises_key_error :
    (get_user_projects (constGW (HttpOutcome.resp 200 (RespBody.json (PyVal.dict
      [(pstr "results", PyVal.list [PyVal.dict
        [(pstr "columns", PyVal.list [pstr "x"]),
         (pstr "rows", PyVal.list [PyVal.list [PyVal.int 1]])]])]))))
      () "u".data).2 = Except.error PyExc.keyError :=
  rfl

theorem setup_database_record (f : Stmt → HttpOutcome) :
    setup_database (recordGW f) [] =
      ([⟨setupQuery1, Option.none⟩, ⟨setupQuery2, Option.none⟩,
        ⟨setupQuery3, Option.none⟩, ⟨setupQuery4, Option.none⟩,
        ⟨setupQuery5, Option.none⟩], Except.ok ()) := by
  have step : ∀ (tr : List Stmt) (q : String) (qs : List String),
      runQueries (recordGW f) tr (q :: qs) =
        runQueries (recordGW f) (tr ++ [⟨q, Option.none⟩]) qs := by
    intro tr q qs
    obtain ⟨r, hr⟩ := exec_never_raises (recordGW f) tr q Option.none FetchMode.none
    simp only [runQueries, hr]
    rfl
  show runQueries (recordGW f) [] [setupQuery1, setupQuery2, setupQuery3, setupQuery4, setupQuery5] = _
  rw [step, step, step, step, step]
  rfl

/-- C9 (corrected): `setup_database` issues exactly the five
`CREATE TABLE IF NOT EXISTS` statements in order, with NO additive-column
statement before them, and never aborts: every statement goes through
`execute_turso_query`, which swallows all failures, so the loop always
completes and returns normally whatever the gateway does. -/
theorem setup_database_five_creates (f : Stmt → HttpOutcome) :
    setup_database (recordGW f) [] =
      ([⟨setupQuery1, Option.none⟩, ⟨setupQuery2, Option.none⟩,
        ⟨setupQuery3, Option.none⟩, ⟨setupQuery4, Option.none⟩,
        ⟨setupQuery5, Option.none⟩], Except.ok ()) :=
  setup_database_record f

/-- C9 counterexample: against a gateway that fails every statement,
`setup_database` still issues all five statements and returns normally
(no abort, no SchemaSetupError), and none of the issued statements is an
ALTER TABLE additive-column statement - each is a CREATE TABLE IF NOT
EXISTS. -/
theorem setup_database_no_abort_counterexample :
    setup_database (recordGW (fun _ => HttpOutcome.netError)) [] =
      ([⟨setupQuery1, Option.none⟩, ⟨setupQuery2, Option.none⟩,
        ⟨setupQuery3, Option.none⟩, ⟨setupQuery4, Option.none⟩,
        ⟨setupQuery5, Option.none⟩], Except.ok ()) ∧
    (setup_database (recordGW (fun _ => HttpOutcome.netError)) []).1.all
      (fun st => containsSub st.q.data "CREATE TABLE IF NOT EXISTS".data) = true ∧
    (setup_database (recordGW (fun _ => HttpOutcome.netError)) []).1.all
      (fun st => !(containsSub st.q.data "ALTER TABLE".data)) = true := by
  refine ⟨setup_database_record (fun _ => HttpOutcome.netError), ?_, ?_⟩
  · rw [setup_database_record (fun _ => HttpOutcome.netError)]
    decide
  · rw [setup_database_record (fun _ => HttpOutcome.netError)]
    decide

/-! ### Dict and fluid-map lemmas -/

theorem keyEq_str_self (a : List Char) : keyEq (PyVal.str a) (PyVal.str a) = true := by
  simp [keyEq]

theorem dictFind_map_replace (m : List (PyVal × PyVal)) (k v : PyVal)
    (h : m.any (fun kv => keyEq kv.1 k) = true) :
    dictFind (m.map (fun kv => if keyEq kv.1 k then (kv.1, v) else kv)) k = some v := by
  induction m with
  | nil => simp at h
  | cons kv t ih =>
    by_cases hh : keyEq kv.1 k = true
    · simp [dictFind, hh]
    · have hb : keyEq kv.1 k = false := by simpa using hh
      simp only [List.any_cons, hb, Bool.false_or] at h
      simp [dictFind, hb, ih h]

theorem dictFind_append_self (m : List (PyVal × PyVal)) (k v : PyVal)
    (h : m.any (fun kv => keyEq kv.1 k) = false) (hk : keyEq k k = true) :
    dictFind (m ++ [(k, v)]) k = some v := by
  induction m with
  | nil => simp [dictFind, hk]
  | cons kv t ih =>
    simp only [List.any_cons, Bool.or_eq_false_iff] at h
    simp [dictFind, h.1, ih h.2]

theorem dictFind_insertRep_self (m : List (PyVal × PyVal)) (k v : PyVal)
    (hk : keyEq k k = true) :
    dictFind (insertRep m k v) k = some v := by
  unfold insertRep
  by_cases h : m.any (fun kv => keyEq kv.1 k) = true
  · simp only [h, if_true]
    exact dictFind_map_replace m k v h
  · have hb : m.any (fun kv => keyEq kv.1 k) = false := by simpa using h
    simp only [hb, Bool.false_eq_true, if_false]
    exact dictFind_append_self m k v hb hk

theorem buildRow_fluid (a b c d : PyVal) :
    buildRowAux (fun i => pySubInt (PyVal.list [a, b, c, d]) i)
      [pstr "fluid_name", pstr "density", pstr "viscosity", pstr "vapor_pressure"] 0 []
    = Except.ok [(pstr "fluid_name", a), (pstr "density", b),
                 (pstr "viscosity", c), (pstr "vapor_pressure", d)] := rfl

theorem mapRows_fluid (rs : List FluidRow) :
    mapRows (PyVal.list [pstr "fluid_name", pstr "density", pstr "viscosity", pstr "vapor_pressure"])
      (rs.map (fun r => PyVal.list [PyVal.str r.fluid_name, r.density, r.viscosity, r.vapor_pressure]))
    = Except.ok (rs.map fluidRowDict) := by
  induction rs with
  | nil => rfl
  | cons r t ih =>
    simp only [List.map_cons, mapRows, pyIter, buildRow_fluid, ih]
    rfl

theorem execOutcome_selResp_fluids (rs : List FluidRow) :
    execOutcome (selResp ["fluid_name", "density", "viscosity", "vapor_pressure"]
      (rs.map (fun r => [PyVal.str r.fluid_name, r.density, r.viscosity, r.vapor_pressure])))
      FetchMode.all
    = Except.ok (QueryResult.many (rs.map fluidRowDict)) := by
  have h1 : (rs.map (fun r => [PyVal.str r.fluid_name, r.density, r.viscosity, r.vapor_pressure])).map PyVal.list
      = rs.map (fun r => PyVal.list [PyVal.str r.fluid_name, r.density, r.viscosity, r.vapor_pressure]) := by
    rw [List.map_map]; rfl
  have hred : execOutcome (selResp ["fluid_name", "density", "viscosity", "vapor_pressure"]
      (rs.map (fun r => [PyVal.str r.fluid_name, r.density, r.viscosity, r.vapor_pressure])))
      FetchMode.all
    = (match mapRows (PyVal.list [pstr "fluid_name", pstr "density", pstr "viscosity", pstr "vapor_pressure"])
        (List.map PyVal.list (rs.map (fun r => [PyVal.str r.fluid_name, r.density, r.viscosity, r.vapor_pressure]))) with
      | Except.error e => Except.error e
      | Except.ok rws => Except.ok (QueryResult.many rws)) := rfl
  rw [hred, h1, mapRows_fluid]

theorem buildFluidMap_step (acc : List (PyVal × PyVal)) (r : FluidRow)
    (rest : List (List (PyVal × PyVal))) :
    buildFluidMap acc (fluidRowDict r :: rest) =
      buildFluidMap (insertRep acc (PyVal.str r.fluid_name) (fluidRec r)) rest := rfl

theorem buildFluidMap_map (acc : List (PyVal × PyVal)) (xs : List FluidRow)
    (ys : List (List (PyVal × PyVal))) :
    buildFluidMap acc (xs.map fluidRowDict ++ ys) =
      buildFluidMap
        (xs.foldl (fun a r => insertRep a (PyVal.str r.fluid_name) (fluidRec r)) acc) ys := by
  induction xs generalizing acc with
  | nil => rfl
  | cons r t ih =>
    rw [List.map_cons, List.cons_append, buildFluidMap_step, ih, List.foldl_cons]

theorem add_user_fluid_healthy_fresh (db : DBState) (u f : List Char)
    (d v p : PyVal)
    (h : db.fluids.any (fun r => r.username == u && r.fluid_name == f) = false) :
    add_user_fluid healthyGW db u f d v p =
      ({ db with fluids := db.fluids ++ [⟨u, f, d, v, p⟩] }, Except.ok true) := by
  have hsend : healthyGW.send db
      ⟨"INSERT INTO user_fluids (username, fluid_name, density, viscosity, vapor_pressure) VALUES (?, ?, ?, ?, ?)",
       some [PyVal.str u, PyVal.str f, d, v, p]⟩ =
      (if db.fluids.any (fun r => r.username == u && r.fluid_name == f) then
        (db, errResp "UNIQUE constraint failed: user_fluids.username, user_fluids.fluid_name")
      else ({ db with fluids := db.fluids ++ [⟨u, f, d, v, p⟩] }, okEmptyResp)) := rfl
  unfold add_user_fluid execute_turso_query
  simp only [hsend, h, Bool.false_eq_true, if_false]
  rfl

theorem get_user_fluids_healthy (db : DBState) (u : List Char) :
    get_user_fluids healthyGW db u =
      (db,
        if ((db.fluids.filter (fun r => r.username == u)).map fluidRowDict).isEmpty then
          Except.ok []
        else buildFluidMap [] ((db.fluids.filter (fun r => r.username == u)).map fluidRowDict)) := by
  have hdec := execOutcome_selResp_fluids (db.fluids.filter (fun r => r.username == u))
  unfold get_user_fluids execute_turso_query
  have hsend : healthyGW.send db
      ⟨"SELECT fluid_name, density, viscosity, vapor_pressure FROM user_fluids WHERE username = ?",
       some [PyVal.str u]⟩ =
      (db, selResp ["fluid_name", "density", "viscosity", "vapor_pressure"]
        ((db.fluids.filter (fun r => r.username == u)).map
          (fun r => [PyVal.str r.fluid_name, r.density, r.viscosity, r.vapor_pressure]))) := rfl
  rw [hsend]
  simp only [hdec]

/-- C7 (confirmed): against a healthy store in which (username, fluid_name)
is fresh, `add_user_fluid` returns `True` and a subsequent
`get_user_fluids(username)` returns a mapping containing `fluid_name` whose
record holds exactly the inserted density (`rho`), viscosity (`nu`) and
vapor pressure (`pv_kpa`). -/
theorem add_fluid_then_get_user_fluids (db : DBState) (u f : List Char)
    (d v p : PyVal)
    (hfresh : db.fluids.any (fun r => r.username == u && r.fluid_name == f) = false) :
    (add_user_fluid healthyGW db u f d v p).2 = Except.ok true ∧
    ∃ m, (get_user_fluids healthyGW (add_user_fluid healthyGW db u f d v p).1 u).2 =
        Except.ok m ∧
      dictFind m (PyVal.str f) =
        some (PyVal.dict [(pstr "rho", d), (pstr "nu", v), (pstr "pv_kpa", p)]) := by
  rw [add_user_fluid_healthy_fresh db u f d v p hfresh]
  refine ⟨rfl, ?_⟩
  rw [get_user_fluids_healthy]
  have hfilter : ({ db with fluids := db.fluids ++ [⟨u, f, d, v, p⟩]} : DBState).fluids.filter
      (fun r => r.username == u) =
      db.fluids.filter (fun r => r.username == u) ++ [⟨u, f, d, v, p⟩] := by
    show (db.fluids ++ [(⟨u, f, d, v, p⟩ : FluidRow)]).filter (fun r => r.username == u) = _
    rw [List.filter_append]
    congr 1
    simp [List.filter]
  rw [hfilter, List.map_append]
  simp only [List.map_cons, List.map_nil]
  rw [buildFluidMap_map]
  have hne : (List.map fluidRowDict (db.fluids.filter (fun r => r.username == u)) ++
      [fluidRowDict ⟨u, f, d, v, p⟩]).isEmpty = false := by
    simp [List.isEmpty_iff]
  rw [hne]
  simp only [Bool.false_eq_true, if_false]
  rw [buildFluidMap_step]
  refine ⟨_, rfl, ?_⟩
  rw [dictFind_insertRep_self _ _ _ (keyEq_str_self f)]
  rfl

/-! ### save_scenario lemmas -/

theorem execOutcome_okEmpty_none :
    execOutcome okEmptyResp FetchMode.none = Except.ok QueryResult.none := rfl

theorem healthy_project_upsert (db : DBState) (u p : List Char) :
    healthySend db
      ⟨"INSERT OR IGNORE INTO projects (username, project_name) VALUES (?, ?)",
       some [PyVal.str u, PyVal.str p]⟩ =
      ((if db.projects.any (fun pr => pr.1 == u && pr.2 == p) then db
        else { db with projects := db.projects ++ [(u, p)] }), okEmptyResp) := by
  have hred : healthySend db
      ⟨"INSERT OR IGNORE INTO projects (username, project_name) VALUES (?, ?)",
       some [PyVal.str u, PyVal.str p]⟩ =
      (if db.projects.any (fun pr => pr.1 == u && pr.2 == p) then (db, okEmptyResp)
       else ({ db with projects := db.projects ++ [(u, p)] }, okEmptyResp)) := rfl
  rw [hred]
  by_cases hc : db.projects.any (fun pr => pr.1 == u && pr.2 == p) = true
  · simp [hc]
  · simp [hc]

theorem healthy_scenario_replace (db : DBState) (u p sn sd : List Char) :
    healthySend db
      ⟨"INSERT OR REPLACE INTO scenarios (username, project_name, scenario_name, scenario_data) VALUES (?, ?, ?, ?)",
       some [PyVal.str u, PyVal.str p, PyVal.str sn, PyVal.str sd]⟩ =
      ({ db with scenarios :=
          (db.scenarios.filter
            (fun r => !(r.username == u && r.project_name == p && r.scenario_name == sn)))
          ++ [⟨u, p, sn, sd⟩] }, okEmptyResp) := rfl

theorem filter_key_of_replaced (xs : List ScenarioRow) (u p sn : List Char) (sd : List Char) :
    ((xs.filter (fun r => !(r.username == u && r.project_name == p && r.scenario_name == sn)))
      ++ [(⟨u, p, sn, sd⟩ : ScenarioRow)]).filter
        (fun r => r.username == u && r.project_name == p && r.scenario_name == sn) =
      [(⟨u, p, sn, sd⟩ : ScenarioRow)] := by
  rw [List.filter_append]
  have h1 : (xs.filter (fun r => !(r.username == u && r.project_name == p && r.scenario_name == sn))).filter
      (fun r => r.username == u && r.project_name == p && r.scenario_name == sn) = [] := by
    induction xs with
    | nil => rfl
    | cons x t ih =>
      cases hx : (x.username == u && x.project_name == p && x.scenario_name == sn) with
      | true => simp [List.filter, hx, ih]
      | false => simp [List.filter, hx, ih]
  rw [h1]
  simp [List.filter]

/-- C8 (confirmed): `save_scenario` performs exactly two writes in order -
first INSERT OR IGNORE of the parent project row, then INSERT OR REPLACE of
the scenario row keyed by (username, project_name, scenario_name) - the
parent project row is present afterwards without any explicit create-project
call, and the scenario row holds the new data. -/
theorem save_scenario_two_writes (db : DBState) (tr : List Stmt)
    (u p sn : List Char) (data : PyVal) (dj : List Char)
    (hd : dumps data = Except.ok dj) :
    (save_scenario (tracedGW healthyGW) (db, tr) u p sn data).2 = Except.ok () ∧
    (save_scenario (tracedGW healthyGW) (db, tr) u p sn data).1.2 =
      tr ++ [⟨"INSERT OR IGNORE INTO projects (username, project_name) VALUES (?, ?)",
              some [PyVal.str u, PyVal.str p]⟩,
             ⟨"INSERT OR REPLACE INTO scenarios (username, project_name, scenario_name, scenario_data) VALUES (?, ?, ?, ?)",
              some [PyVal.str u, PyVal.str p, PyVal.str sn, PyVal.str dj]⟩] ∧
    (u, p) ∈ (save_scenario (tracedGW healthyGW) (db, tr) u p sn data).1.1.projects ∧
    (save_scenario (tracedGW healthyGW) (db, tr) u p sn data).1.1.scenarios.filter
      (fun r => r.username == u && r.project_name == p && r.scenario_name == sn) =
      [(⟨u, p, sn, dj⟩ : ScenarioRow)] := by
  simp only [save_scenario, execute_turso_query, tracedGW, healthyGW, hd,
    healthy_project_upsert, healthy_scenario_replace, execOutcome_okEmpty_none]
  refine ⟨trivial, by simp, ?_, ?_⟩
  · cases hc : db.projects.any (fun pr => pr.1 == u && pr.2 == p) with
    | true =>
      simp only [hc, if_true]
      obtain ⟨pr, hmem, hpr⟩ := List.any_eq_true.mp hc
      simp only [Bool.and_eq_true] at hpr
      have : pr = (u, p) := Prod.ext (by simpa using hpr.1) (by simpa using hpr.2)
      rwa [this] at hmem
    | false =>
      simp only [hc, Bool.false_eq_true, if_false]
      simp
  · cases hc : db.projects.any (fun pr => pr.1 == u && pr.2 == p) with
    | true =>
      simp only [hc, if_true]
      exact filter_key_of_replaced db.scenarios u p sn dj
    | false =>
      simp only [hc, Bool.false_eq_true, if_false]
      exact filter_key_of_replaced db.scenarios u p sn dj

/-! ### JSON round trip: string-literal lemmas -/

theorem skipWs_cons_not_ws (c : Char) (l : List Char) (h : isWsChar c = false) :
    skipWs (c :: l) = c :: l := by
  simp [skipWs, h]

theorem skipWs_append_ws (pre l : List Char) (h : ∀ c ∈ pre, isWsChar c = true) :
    skipWs (pre ++ l) = skipWs l := by
  induction pre with
  | nil => rfl
  | cons c t ih =>
    have hc := h c (List.mem_cons_self c t)
    simp only [List.cons_append, skipWs, hc, if_true]
    exact ih (fun c hc2 => h c (List.mem_cons_of_mem _ hc2))

theorem parseVal_ws (fuel : Nat) (pre l : List Char) (h : ∀ c ∈ pre, isWsChar c = true) :
    parseVal fuel (pre ++ l) = parseVal fuel l := by
  cases fuel with
  | zero => rfl
  | succ f =>
    show parseVal (f + 1) (pre ++ l) = parseVal (f + 1) l
    unfold parseVal
    rw [skipWs_append_ws pre l h]

theorem hexVal_hexDigitChar (d : Nat) (h : d < 16) :
    hexVal (hexDigitChar d) = some d := by
  interval_cases d <;> rfl

theorem hex_recompose (n : Nat) (h : n < 65536) :
    n / 4096 % 16 * 4096 + n / 256 % 16 * 256 + n / 16 % 16 * 16 + n % 16 = n := by
  omega



theorem parseHex4_hex4 (m : Nat) (hm : m < 65536) (l : List Char) :
    parseHex4 (hex4 m ++ l) = some (m, l) := by
  have e1 := hexVal_hexDigitChar (m / 4096 % 16) (by omega)
  have e2 := hexVal_hexDigitChar (m / 256 % 16) (by omega)
  have e3 := hexVal_hexDigitChar (m / 16 % 16) (by omega)
  have e4 := hexVal_hexDigitChar (m % 16) (by omega)
  simp only [hex4, List.cons_append, List.nil_append, parseHex4, e1, e2, e3, e4]
  rw [hex_recompose m hm]

theorem parseUEsc_bmp (m : Nat) (hm : m < 65536)
    (hns : ¬(55296 ≤ m ∧ m ≤ 57343)) (l : List Char) :
    parseUEsc (hex4 m ++ l) = some (Char.ofNat m, l) := by
  simp only [parseUEsc, parseHex4_hex4 m hm l]
  rw [if_neg (by omega), if_neg (by omega)]

theorem parseUEsc_pair_gen (hi lo tgt : Nat)
    (hhiR : 55296 ≤ hi ∧ hi ≤ 56319) (hhi : hi < 65536)
    (hloR : 56320 ≤ lo ∧ lo ≤ 57343) (hlo : lo < 65536)
    (heq : 65536 + (hi - 55296) * 1024 + (lo - 56320) = tgt) (l : List Char) :
    parseUEsc (hex4 hi ++ (bsl :: 'u' :: (hex4 lo ++ l))) =
      some (Char.ofNat tgt, l) := by
  unfold parseUEsc
  rw [parseHex4_hex4 _ hhi]
  simp only []
  rw [if_pos hhiR]
  rw [if_pos (show True ∧ True from ⟨trivial, trivial⟩)]
  rw [parseHex4_hex4 _ hlo]
  simp only []
  rw [if_pos hloR, heq]

theorem parseUEsc_pair (m : Nat) (h1 : 65536 ≤ m) (h2 : m < 1114112) (l : List Char) :
    parseUEsc (hex4 (55296 + (m - 65536) / 1024) ++
      (bsl :: 'u' :: (hex4 (56320 + (m - 65536) % 1024) ++ l))) =
      some (Char.ofNat m, l) :=
  parseUEsc_pair_gen (55296 + (m - 65536) / 1024) (56320 + (m - 65536) % 1024) m
    (by omega) (by omega) (by omega) (by omega) (by omega) l

theorem parseStrBody_qc (f : Nat) (cs : List Char) :
    parseStrBody (f + 1) (qc :: cs) = some ([], cs) := rfl

theorem parseStrBody_bsl (f : Nat) (cs : List Char) :
    parseStrBody (f + 1) (bsl :: cs) =
      (match parseEsc cs with
       | some (ch, rest) => (parseStrBody f rest).map (fun p => (ch :: p.1, p.2))
       | Option.none => Option.none) := rfl

theorem parseStrBody_lit (f : Nat) (c : Char) (cs : List Char)
    (h1 : ¬ c = qc) (h2 : ¬ c = bsl) (h3 : ¬ c.toNat < 32) :
    parseStrBody (f + 1) (c :: cs) =
      (parseStrBody f cs).map (fun p => (c :: p.1, p.2)) := by
  have hstep : parseStrBody (f + 1) (c :: cs) =
      (if c = qc then some ([], cs)
       else if c = bsl then
         match parseEsc cs with
         | some (ch, rest) => (parseStrBody f rest).map (fun p => (ch :: p.1, p.2))
         | Option.none => Option.none
       else if c.toNat < 32 then Option.none
       else (parseStrBody f cs).map (fun p => (c :: p.1, p.2))) := rfl
  rw [hstep, if_neg h1, if_neg h2, if_neg h3]

theorem parseEsc_qc (l : List Char) : parseEsc (qc :: l) = some (qc, l) := rfl

theorem parseEsc_bsl (l : List Char) : parseEsc (bsl :: l) = some (bsl, l) := rfl

theorem parseEsc_n (l : List Char) : parseEsc ('n' :: l) = some (Char.ofNat 10, l) := rfl

theorem parseEsc_t (l : List Char) : parseEsc ('t' :: l) = some (Char.ofNat 9, l) := rfl

theorem parseEsc_r (l : List Char) : parseEsc ('r' :: l) = some (Char.ofNat 13, l) := rfl

theorem parseEsc_b (l : List Char) : parseEsc ('b' :: l) = some (Char.ofNat 8, l) := rfl

theorem parseEsc_f (l : List Char) : parseEsc ('f' :: l) = some (Char.ofNat 12, l) := rfl

theorem parseEsc_u (l : List Char) : parseEsc ('u' :: l) = parseUEsc l := rfl

theorem parseStrBody_escaped (f : Nat) (ch : Char) (e : Char) (l : List Char)
    (he : parseEsc (e :: l) = some (ch, l)) :
    parseStrBody (f + 1) (bsl :: e :: l) =
      (parseStrBody f l).map (fun p => (ch :: p.1, p.2)) := by
  rw [parseStrBody_bsl, he]

theorem parseStrBody_uesc (f : Nat) (ch : Char) (body l : List Char)
    (hu : parseUEsc (body ++ l) = some (ch, l)) :
    parseStrBody (f + 1) (bsl :: 'u' :: (body ++ l)) =
      (parseStrBody f l).map (fun p => (ch :: p.1, p.2)) := by
  rw [parseStrBody_bsl, parseEsc_u, hu]

set_option maxHeartbeats 1000000 in
theorem parseStrBody_encChar (f : Nat) (c : Char) (l : List Char) :
    parseStrBody (f + 1) (encChar c ++ l) =
      (parseStrBody f l).map (fun p => (c :: p.1, p.2)) := by
  have hvalid : c.toNat < 55296 ∨ (57343 < c.toNat ∧ c.toNat < 1114112) := c.valid
  unfold encChar
  split_ifs with h1 h2 h3 h4 h5 h6 h7 h8 h9 h10
  · subst h1
    exact parseStrBody_escaped f qc qc l (parseEsc_qc l)
  · subst h2
    exact parseStrBody_escaped f bsl bsl l (parseEsc_bsl l)
  · subst h3
    exact parseStrBody_escaped f (Char.ofNat 10) 'n' l (parseEsc_n l)
  · subst h4
    exact parseStrBody_escaped f (Char.ofNat 9) 't' l (parseEsc_t l)
  · subst h5
    exact parseStrBody_escaped f (Char.ofNat 13) 'r' l (parseEsc_r l)
  · subst h6
    exact parseStrBody_escaped f (Char.ofNat 8) 'b' l (parseEsc_b l)
  · subst h7
    exact parseStrBody_escaped f (Char.ofNat 12) 'f' l (parseEsc_f l)
  · have hb := parseUEsc_bmp c.toNat (by omega) (by omega) l
    have hr := parseStrBody_uesc f c (hex4 c.toNat) l (by rw [hb, Char.ofNat_toNat])
    simpa using hr
  · exact parseStrBody_lit f c l h1 h2 (by omega)
  · have hns : ¬(55296 ≤ c.toNat ∧ c.toNat ≤ 57343) := by omega
    have hb := parseUEsc_bmp c.toNat h10 hns l
    have hr := parseStrBody_uesc f c (hex4 c.toNat) l (by rw [hb, Char.ofNat_toNat])
    simpa using hr
  · have hup : c.toNat < 1114112 := by omega
    have hb := parseUEsc_pair c.toNat (by omega) hup l
    have hr := parseStrBody_uesc f c
        (hex4 (55296 + (c.toNat - 65536) / 1024) ++
          (bsl :: 'u' :: hex4 (56320 + (c.toNat - 65536) % 1024))) l
        (by rw [List.append_assoc]
            simp only [List.cons_append, List.append_assoc]
            rw [hb, Char.ofNat_toNat])
    simpa [List.append_assoc] using hr

theorem parseStrBody_enc (s : List Char) : ∀ (f : Nat), s.length + 1 ≤ f →
    ∀ (rest : List Char),
    parseStrBody f (s.foldr (fun c acc => encChar c ++ acc) [qc] ++ rest) =
      some (s, rest) := by
  induction s with
  | nil =>
    intro f hf rest
    obtain ⟨g, rfl⟩ : ∃ g, f = g + 1 := ⟨f - 1, by omega⟩
    rfl
  | cons c t ih =>
    intro f hf rest
    obtain ⟨g, rfl⟩ : ∃ g, f = g + 1 := ⟨f - 1, by omega⟩
    simp only [List.foldr_cons, List.append_assoc]
    rw [parseStrBody_encChar g c _]
    rw [ih g (by simpa using Nat.le_of_succ_le_succ hf) rest]
    rfl

/-! ### JSON round trip: number lemmas -/

theorem hexDigitChar_isDigit (d : Nat) (h : d < 10) :
    isDigitCh (hexDigitChar d) = true := by
  interval_cases d <;> rfl

theorem hexDigitChar_toNat (d : Nat) (h : d < 10) :
    (hexDigitChar d).toNat - 48 = d := by
  interval_cases d <;> rfl

theorem natDigitsRev_lt10 : ∀ (fuel n d : Nat), d ∈ natDigitsRev fuel n → d < 10 := by
  intro fuel
  induction fuel with
  | zero => intro n d h; simp [natDigitsRev] at h
  | succ f ih =>
    intro n d h
    by_cases hn : n = 0
    · simp [natDigitsRev, hn] at h
    · simp only [natDigitsRev, hn, if_false] at h
      rcases List.mem_cons.mp h with h | h
      · omega
      · exact ih (n / 10) d h

theorem natDigitsRev_ne_nil (fuel n : Nat) (hn : n ≠ 0) (hf : 1 ≤ fuel) :
    natDigitsRev fuel n ≠ [] := by
  obtain ⟨g, rfl⟩ : ∃ g, fuel = g + 1 := ⟨fuel - 1, by omega⟩
  simp [natDigitsRev, hn]

theorem foldl_append_digit (L : List Nat) (acc d : Nat) :
    (L ++ [d]).foldl (fun a x => a * 10 + x) acc =
      (L.foldl (fun a x => a * 10 + x) acc) * 10 + d := by
  rw [List.foldl_append]
  rfl

theorem foldl_natDigitsRev : ∀ (fuel n acc : Nat), n ≤ fuel →
    (natDigitsRev fuel n).reverse.foldl (fun a d => a * 10 + d) acc =
      acc * 10 ^ (natDigitsRev fuel n).length + n := by
  intro fuel
  induction fuel with
  | zero =>
    intro n acc h
    have : n = 0 := by omega
    simp [natDigitsRev, this]
  | succ f ih =>
    intro n acc h
    by_cases hn : n = 0
    · simp [natDigitsRev, hn]
    · simp only [natDigitsRev, hn, if_false, List.reverse_cons, List.length_cons]
      rw [foldl_append_digit]
      rw [ih (n / 10) acc (by omega)]
      have hp : 10 ^ ((natDigitsRev f (n / 10)).length + 1) =
          10 ^ (natDigitsRev f (n / 10)).length * 10 := by ring
      rw [hp]
      have h10 : n / 10 * 10 + n % 10 = n := by omega
      ring_nf
      omega

/-- The continuation cannot extend a digit run. -/
def headNotDigit : List Char → Prop
  | [] => True
  | c :: _ => isDigitCh c = false

theorem parseDigitsAcc_stop (acc : Nat) (rest : List Char) (h : headNotDigit rest) :
    parseDigitsAcc acc rest = (acc, rest) := by
  cases rest with
  | nil => rfl
  | cons c t =>
    simp only [headNotDigit] at h
    simp [parseDigitsAcc, h]

theorem parseDigitsAcc_run (ds : List Char) : ∀ (acc : Nat) (rest : List Char),
    (∀ c ∈ ds, isDigitCh c = true) → headNotDigit rest →
    parseDigitsAcc acc (ds ++ rest) =
      (ds.foldl (fun a c => a * 10 + (c.toNat - 48)) acc, rest) := by
  induction ds with
  | nil =>
    intro acc rest _ hrest
    simpa using parseDigitsAcc_stop acc rest hrest
  | cons c t ih =>
    intro acc rest hds hrest
    have hc := hds c (List.mem_cons_self c t)
    simp only [List.cons_append, parseDigitsAcc, hc, if_true, List.foldl_cons]
    exact ih _ rest (fun x hx => hds x (List.mem_cons_of_mem _ hx)) hrest

theorem parseNatTok_digits (ds : List Char) (rest : List Char) (hne : ds ≠ [])
    (hds : ∀ c ∈ ds, isDigitCh c = true) (hrest : headNotDigit rest) :
    parseNatTok (ds ++ rest) =
      some (ds.foldl (fun a c => a * 10 + (c.toNat - 48)) 0, rest) := by
  obtain ⟨c, t, rfl⟩ : ∃ c t, ds = c :: t := by
    cases ds with
    | nil => exact absurd rfl hne
    | cons c t => exact ⟨c, t, rfl⟩
  have hc := hds c (List.mem_cons_self c t)
  simp only [List.cons_append, parseNatTok, hc, if_true]
  rw [parseDigitsAcc_run t _ rest (fun x hx => hds x (List.mem_cons_of_mem _ hx)) hrest]
  simp

theorem foldl_digits_chars (L : List Nat) : ∀ (acc : Nat), (∀ d ∈ L, d < 10) →
    (L.map hexDigitChar).foldl (fun a c => a * 10 + (c.toNat - 48)) acc =
      L.foldl (fun a d => a * 10 + d) acc := by
  induction L with
  | nil => intro acc _; rfl
  | cons d t ih =>
    intro acc hd
    simp only [List.map_cons, List.foldl_cons]
    rw [hexDigitChar_toNat d (hd d (List.mem_cons_self d t))]
    exact ih _ (fun x hx => hd x (List.mem_cons_of_mem _ hx))

theorem parseNatTok_encNat (n : Nat) (rest : List Char) (hrest : headNotDigit rest) :
    parseNatTok (encNat n ++ rest) = some (n, rest) := by
  by_cases hn : n = 0
  · subst hn
    show parseNatTok (['0'] ++ rest) = some (0, rest)
    rw [parseNatTok_digits ['0'] rest (by simp) (by intro c hc; simp at hc; subst hc; rfl) hrest]
    rfl
  · have hds : ∀ c ∈ (natDigitsRev n n).reverse.map hexDigitChar, isDigitCh c = true := by
      intro c hc
      obtain ⟨d, hd, rfl⟩ := List.mem_map.mp hc
      exact hexDigitChar_isDigit d (natDigitsRev_lt10 n n d (List.mem_reverse.mp hd))
    have hne : (natDigitsRev n n).reverse.map hexDigitChar ≠ [] := by
      intro hcon
      have := natDigitsRev_ne_nil n n hn (by omega)
      simp at hcon
      exact this hcon
    show parseNatTok (encNat n ++ rest) = some (n, rest)
    rw [show encNat n = (natDigitsRev n n).reverse.map hexDigitChar by simp [encNat, hn]]
    rw [parseNatTok_digits _ rest hne hds hrest]
    rw [foldl_digits_chars _ 0
      (fun d hd => natDigitsRev_lt10 n n d (List.mem_reverse.mp hd))]
    rw [foldl_natDigitsRev n n 0 (by omega)]
    simp

theorem encNat_head_digit (n : Nat) :
    ∃ c t, encNat n = c :: t ∧ isDigitCh c = true := by
  by_cases hn : n = 0
  · exact ⟨'0', [], by simp [encNat, hn], rfl⟩
  · have hne := natDigitsRev_ne_nil n n hn (by omega)
    obtain ⟨d, L, hL⟩ : ∃ d L, (natDigitsRev n n).reverse = d :: L := by
      cases hrev : (natDigitsRev n n).reverse with
      | nil => exact absurd (by simpa using hrev) hne
      | cons d L => exact ⟨d, L, rfl⟩
    refine ⟨hexDigitChar d, L.map hexDigitChar, ?_, ?_⟩
    · simp [encNat, hn, hL]
    · exact hexDigitChar_isDigit d
        (natDigitsRev_lt10 n n d (List.mem_reverse.mp (by rw [hL]; exact List.mem_cons_self d L)))

theorem numBoundary_headNotDigit (rest : List Char) (h : numBoundary rest) :
    headNotDigit rest := by
  cases rest with
  | nil => trivial
  | cons c t => exact h.1

theorem parseIntTok_encInt (i : Int) (rest : List Char) (hrest : headNotDigit rest) :
    parseIntTok (encInt i ++ rest) = some (i, rest) := by
  by_cases hi : i < 0
  · have henc : encInt i = '-' :: encNat i.natAbs := by simp [encInt, hi]
    rw [henc]
    simp only [List.cons_append, parseIntTok, if_pos rfl]
    rw [parseNatTok_encNat i.natAbs rest hrest]
    simp only [Option.map_some', if_true]
    have hval : -(i.natAbs : Int) = i := by omega
    rw [hval]
  · have henc : encInt i = encNat i.natAbs := by simp [encInt, hi]
    rw [henc]
    obtain ⟨c, t, hct, hc⟩ := encNat_head_digit i.natAbs
    rw [hct]
    have hcm : ¬ c = '-' := by
      intro hcon
      subst hcon
      simp [isDigitCh] at hc
    simp only [List.cons_append, parseIntTok, if_neg hcm]
    rw [← List.cons_append, ← hct, parseNatTok_encNat i.natAbs rest hrest]
    simp only [Option.map_some']
    have hval : ((i.natAbs : Int)) = i := by omega
    rw [hval]

theorem parseIntJson_encInt (i : Int) (rest : List Char) (hb : numBoundary rest) :
    parseIntJson (encInt i ++ rest) = some (i, rest) := by
  unfold parseIntJson
  rw [parseIntTok_encInt i rest (numBoundary_headNotDigit rest hb)]
  cases rest with
  | nil => rfl
  | cons c t =>
    obtain ⟨_, h2, h3, h4⟩ := hb
    simp [h2, h3, h4]

/-! ### JSON round trip: value dispatch lemmas -/

theorem parseVal_qc (f : Nat) (X : List Char) :
    parseVal (f + 1) (qc :: X) =
      (parseStrBody (X.length + 1) X).map (fun p => (PyVal.str p.1, p.2)) := rfl

theorem parseVal_null (f : Nat) (rest : List Char) :
    parseVal (f + 1) ('n' :: 'u' :: 'l' :: 'l' :: rest) = some (PyVal.none, rest) := rfl

theorem parseVal_true (f : Nat) (rest : List Char) :
    parseVal (f + 1) ('t' :: 'r' :: 'u' :: 'e' :: rest) = some (PyVal.bool true, rest) := rfl

theorem parseVal_false (f : Nat) (rest : List Char) :
    parseVal (f + 1) ('f' :: 'a' :: 'l' :: 's' :: 'e' :: rest) =
      some (PyVal.bool false, rest) := rfl

theorem parseVal_lbracket (f : Nat) (X : List Char) :
    parseVal (f + 1) ('[' :: X) =
      (match skipWs X with
       | c2 :: r => if c2 = ']' then some (PyVal.list [], r)
           else (parseItemsNE f X).map (fun p => (PyVal.list p.1, p.2))
       | [] => Option.none) := rfl

theorem parseVal_lcb (f : Nat) (X : List Char) :
    parseVal (f + 1) (lcb :: X) =
      (match skipWs X with
       | c2 :: r => if c2 = rcb then some (PyVal.dict [], r)
           else (parseEntriesNE f X).map (fun p => (PyVal.dict (dictOfPairs p.1), p.2))
       | [] => Option.none) := rfl

set_option maxHeartbeats 1000000 in
theorem encChar_length_pos (c : Char) : 1 ≤ (encChar c).length := by
  unfold encChar
  split_ifs <;> simp [hex4]

theorem encStrFold_length (s : List Char) :
    s.length + 1 ≤ (s.foldr (fun c acc => encChar c ++ acc) [qc]).length := by
  induction s with
  | nil => simp
  | cons c t ih =>
    simp only [List.foldr_cons, List.length_append, List.length_cons]
    have := encChar_length_pos c
    omega

theorem parseVal_encStr (f : Nat) (s : List Char) (rest : List Char) :
    parseVal (f + 1) (encStr s ++ rest) = some (PyVal.str s, rest) := by
  show parseVal (f + 1)
    (qc :: (s.foldr (fun c acc => encChar c ++ acc) [qc] ++ rest)) = _
  rw [parseVal_qc]
  rw [parseStrBody_enc s _ (by
    have h1 := encStrFold_length s
    simp only [List.length_append]
    omega) rest]
  rfl

theorem isDigitCh_not_ws (c : Char) (h : isDigitCh c = true) : isWsChar c = false := by
  simp only [isDigitCh, Bool.and_eq_true, decide_eq_true_eq] at h
  simp only [isWsChar, Bool.or_eq_false_iff, decide_eq_false_iff_not]
  omega

theorem parseVal_headDigit (f : Nat) (c : Char) (X : List Char)
    (hd : isDigitCh c = true) :
    parseVal (f + 1) (c :: X) =
      (parseIntJson (c :: X)).map (fun p => (PyVal.int p.1, p.2)) := by
  have hne : ∀ (m : Nat), c.toNat = m → False → True := fun _ _ _ => trivial
  have htn : 48 ≤ c.toNat ∧ c.toNat ≤ 57 := by
    simp only [isDigitCh, Bool.and_eq_true, decide_eq_true_eq] at hd
    exact hd
  have hq : ¬ c = qc := by intro h; subst h; exact absurd htn (by decide)
  have hlcb : ¬ c = lcb := by intro h; subst h; exact absurd htn (by decide)
  have hlb : ¬ c = '[' := by intro h; subst h; exact absurd htn (by decide)
  have hn : ¬ c = 'n' := by intro h; subst h; exact absurd htn (by decide)
  have ht : ¬ c = 't' := by intro h; subst h; exact absurd htn (by decide)
  have hf : ¬ c = 'f' := by intro h; subst h; exact absurd htn (by decide)
  unfold parseVal
  rw [skipWs_cons_not_ws c X (isDigitCh_not_ws c hd)]
  simp only [if_neg hq, if_neg hlcb, if_neg hlb, if_neg hn, if_neg ht, if_neg hf]

theorem minus_facts : (¬ '-' = qc) ∧ (¬ '-' = lcb) ∧ isWsChar '-' = false := by
  refine ⟨?_, ?_, rfl⟩ <;> decide

theorem parseVal_minus (f : Nat) (X : List Char) :
    parseVal (f + 1) ('-' :: X) =
      (parseIntJson ('-' :: X)).map (fun p => (PyVal.int p.1, p.2)) := rfl

theorem parseItemsNE_step (f : Nat) (s : List Char) :
    parseItemsNE (f + 1) s =
      (match parseVal f s with
       | some (v, r) =>
         match skipWs r with
         | c :: r2 =>
           if c = ']' then some ([v], r2)
           else if c = ',' then (parseItemsNE f r2).map (fun p => (v :: p.1, p.2))
           else Option.none
         | [] => Option.none
       | Option.none => Option.none) := rfl

theorem parseEntriesNE_step (f : Nat) (s : List Char) :
    parseEntriesNE (f + 1) s =
      (match skipWs s with
       | c :: cs =>
         if c = qc then
           match parseStrBody (cs.length + 1) cs with
           | some (k, r) =>
             match skipWs r with
             | c1 :: r2 =>
               if c1 = ':' then
                 match parseVal f r2 with
                 | some (v, r3) =>
                   match skipWs r3 with
                   | c2 :: r4 =>
                     if c2 = rcb then some ([(PyVal.str k, v)], r4)
                     else if c2 = ',' then
                       (parseEntriesNE f r4).map (fun p => ((PyVal.str k, v) :: p.1, p.2))
                     else Option.none
                   | [] => Option.none
                 | Option.none => Option.none
               else Option.none
             | [] => Option.none
           | Option.none => Option.none
         else Option.none
       | [] => Option.none) := rfl

/-! ### JSON round trip: dict reassembly -/

theorem keyEq_comm (a b : PyVal) : keyEq a b = keyEq b a := by
  cases a <;> cases b <;> simp [keyEq] <;>
    first
      | rfl
      | exact eq_comm
      | (constructor <;> intro h <;> omega)
      | (rw [Bool.eq_iff_iff]; simp [beq_iff_eq]; constructor <;> intro h <;> omega)

theorem insertRep_fresh (acc : List (PyVal × PyVal)) (k v : PyVal)
    (h : acc.all (fun kv => !(keyEq kv.1 k)) = true) :
    insertRep acc k v = acc ++ [(k, v)] := by
  unfold insertRep
  have hany : acc.any (fun kv => keyEq kv.1 k) = false := by
    rw [List.any_eq_false]
    intro kv hkv
    have := (List.all_eq_true.mp h) kv hkv
    simpa using this
  simp [hany]

theorem dictOfPairs_aux (es : List (PyVal × PyVal)) : ∀ (acc : List (PyVal × PyVal)),
    entriesOk es = true →
    (∀ kv ∈ es, acc.all (fun kv2 => !(keyEq kv2.1 kv.1)) = true) →
    es.foldl (fun a kv => insertRep a kv.1 kv.2) acc = acc ++ es := by
  induction es with
  | nil => intro acc _ _; simp
  | cons kv t ih =>
    intro acc hok hdisj
    obtain ⟨k, v⟩ := kv
    simp only [List.foldl_cons]
    rw [insertRep_fresh acc k v (hdisj (k, v) (List.mem_cons_self _ _))]
    simp only [entriesOk, Bool.and_eq_true] at hok
    rw [ih (acc ++ [(k, v)]) hok.2 ?_]
    · simp
    · intro kv2 hkv2
      rw [List.all_append]
      simp only [Bool.and_eq_true]
      constructor
      · have := hdisj kv2 (List.mem_cons_of_mem _ hkv2)
        exact this
      · simp only [List.all_cons, List.all_nil, Bool.and_true]
        have := (List.all_eq_true.mp hok.1.2) kv2 hkv2
        rw [keyEq_comm]
        simpa using this

theorem dictOfPairs_eq (es : List (PyVal × PyVal)) (h : entriesOk es = true) :
    dictOfPairs es = es := by
  unfold dictOfPairs
  rw [dictOfPairs_aux es [] h (fun kv _ => rfl)]
  rfl

/-! ### JSON round trip: encoder existence and size bounds -/

theorem encNat_ne_nil (n : Nat) : encNat n ≠ [] := by
  by_cases hn : n = 0
  · simp [encNat, hn]
  · simp only [encNat, hn, if_false]
    intro hcon
    have := natDigitsRev_ne_nil n n hn (by omega)
    simp at hcon
    exact this hcon

theorem encInt_length_pos (i : Int) : 1 ≤ (encInt i).length := by
  unfold encInt
  split_ifs
  · simp
  · have := encNat_ne_nil i.natAbs
    cases h : encNat i.natAbs with
    | nil => exact absurd h this
    | cons c t => simp [h]

theorem enc_ok_bound : ∀ (k : Nat),
    (∀ v, sizeV v ≤ k → jsonableV v = true →
      ∃ cs, encVal v = Except.ok cs ∧ sizeV v ≤ cs.length) ∧
    (∀ xs, sizeL xs ≤ k → jsonableL xs = true →
      ∃ cs, encItems xs = Except.ok cs ∧ (xs ≠ [] → sizeL xs ≤ cs.length + 1)) ∧
    (∀ es, sizeE es ≤ k → entriesOk es = true → jsonableE es = true →
      ∃ cs, encEntries es = Except.ok cs ∧ (es ≠ [] → sizeE es ≤ cs.length)) := by
  intro k
  induction k with
  | zero =>
    refine ⟨fun v hv _ => absurd hv ?_, fun xs hxs hj => ⟨[], ?_, ?_⟩, fun es hes _ _ => ⟨[], ?_, ?_⟩⟩
    · cases v <;> simp [sizeV] <;> omega
    · cases xs with
      | nil => rfl
      | cons x t =>
        exfalso
        have h2 : sizeL (x :: t) = 1 + sizeV x + sizeL t := rfl
        omega
    · cases xs with
      | nil => intro h; exact absurd rfl h
      | cons x t =>
        exfalso
        have h2 : sizeL (x :: t) = 1 + sizeV x + sizeL t := rfl
        omega
    · cases es with
      | nil => rfl
      | cons e t =>
        obtain ⟨ek, ev⟩ := e
        exfalso
        have h2 : sizeE ((ek, ev) :: t) = 1 + sizeV ev + sizeE t := rfl
        omega
    · cases es with
      | nil => intro h; exact absurd rfl h
      | cons e t =>
        obtain ⟨ek, ev⟩ := e
        exfalso
        have h2 : sizeE ((ek, ev) :: t) = 1 + sizeV ev + sizeE t := rfl
        omega
  | succ k ih =>
    obtain ⟨ihV, ihL, ihE⟩ := ih
    refine ⟨?_, ?_, ?_⟩
    · intro v hv hj
      cases v with
      | none => exact ⟨"null".data, rfl, by simp [sizeV]⟩
      | bool b => cases b with
        | true => exact ⟨"true".data, rfl, by simp [sizeV]⟩
        | false => exact ⟨"false".data, rfl, by simp [sizeV]⟩
      | int i =>
        refine ⟨encInt i, rfl, ?_⟩
        have := encInt_length_pos i
        simp [sizeV]; omega
      | str s =>
        refine ⟨encStr s, rfl, ?_⟩
        simp [sizeV, encStr]
      | list xs =>
        have hjl : jsonableL xs = true := by simpa [jsonableV] using hj
        have hszl : sizeL xs ≤ k := by simp [sizeV] at hv; omega
        obtain ⟨cs, hcs, hlen⟩ := ihL xs hszl hjl
        refine ⟨'[' :: cs ++ [']'], ?_, ?_⟩
        · show encVal (PyVal.list xs) = _
          unfold encVal
          rw [hcs]
        · cases xs with
          | nil =>
            simp [sizeL, sizeV]
          | cons x t =>
            have := hlen (by simp)
            simp only [sizeV, List.length_cons, List.length_append, List.length_cons,
              List.length_nil]
            omega
      | dict es =>
        have hok : entriesOk es = true := by
          simp only [jsonableV, Bool.and_eq_true] at hj
          exact hj.1
        have hje : jsonableE es = true := by
          simp only [jsonableV, Bool.and_eq_true] at hj
          exact hj.2
        have hsze : sizeE es ≤ k := by simp [sizeV] at hv; omega
        obtain ⟨cs, hcs, hlen⟩ := ihE es hsze hok hje
        refine ⟨lcb :: cs ++ [rcb], ?_, ?_⟩
        · show encVal (PyVal.dict es) = _
          unfold encVal
          rw [hcs]
        · cases es with
          | nil => simp [sizeE, sizeV]
          | cons e t =>
            have := hlen (by simp)
            simp only [sizeV, List.length_cons, List.length_append, List.length_nil]
            omega
    · intro xs hxs hj
      cases xs with
      | nil => exact ⟨[], rfl, fun h => absurd rfl h⟩
      | cons x t =>
        have hjx : jsonableV x = true := by
          simp only [jsonableL, Bool.and_eq_true] at hj
          exact hj.1
        have hjt : jsonableL t = true := by
          simp only [jsonableL, Bool.and_eq_true] at hj
          exact hj.2
        have hsx : sizeV x ≤ k := by simp [sizeL] at hxs; omega
        obtain ⟨cx, hcx, hlx⟩ := ihV x hsx hjx
        cases t with
        | nil =>
          refine ⟨cx, ?_, ?_⟩
          · show encItems [x] = _
            unfold encItems
            exact hcx
          · intro _
            simp only [sizeL, sizeE]
            omega
        | cons y t2 =>
          have hst : sizeL (y :: t2) ≤ k := by simp [sizeL] at hxs ⊢; omega
          obtain ⟨ct, hct, hlt⟩ := ihL (y :: t2) hst hjt
          refine ⟨cx ++ ',' :: ' ' :: ct, ?_, ?_⟩
          · show encItems (x :: y :: t2) = _
            unfold encItems
            rw [hcx, hct]
          · intro _
            have h2 := hlt (by simp)
            simp only [sizeL] at *
            simp only [List.length_append, List.length_cons]
            omega
    · intro es hes hok hje
      cases es with
      | nil => exact ⟨[], rfl, fun h => absurd rfl h⟩
      | cons e t =>
        obtain ⟨ek, ev⟩ := e
        obtain ⟨ks, rfl⟩ : ∃ ks, ek = PyVal.str ks := by
          cases ek with
          | str s => exact ⟨s, rfl⟩
          | none => simp [entriesOk] at hok
          | bool b => simp [entriesOk] at hok
          | int n => simp [entriesOk] at hok
          | list l => simp [entriesOk] at hok
          | dict d => simp [entriesOk] at hok
        have hjv : jsonableV ev = true := by
          simp only [jsonableE, Bool.and_eq_true] at hje
          exact hje.1
        have hjt : jsonableE t = true := by
          simp only [jsonableE, Bool.and_eq_true] at hje
          exact hje.2
        have hokt : entriesOk t = true := by
          simp only [entriesOk, Bool.and_eq_true] at hok
          exact hok.2
        have hsv : sizeV ev ≤ k := by simp [sizeE] at hes; omega
        obtain ⟨cv, hcv, hlv⟩ := ihV ev hsv hjv
        cases t with
        | nil =>
          refine ⟨encStr ks ++ ':' :: ' ' :: cv, ?_, ?_⟩
          · show encEntries [(PyVal.str ks, ev)] = _
            unfold encEntries
            simp only [encKey]
            rw [hcv]
          · intro _
            simp only [sizeE, List.length_append, List.length_cons]
            omega
        | cons e2 t2 =>
          have hst : sizeE (e2 :: t2) ≤ k := by
            obtain ⟨_, _⟩ := e2
            simp [sizeE] at hes ⊢
            omega
          obtain ⟨ct, hct, hlt⟩ := ihE (e2 :: t2) hst hokt hjt
          refine ⟨encStr ks ++ ':' :: ' ' :: cv ++ ',' :: ' ' :: ct, ?_, ?_⟩
          · show encEntries ((PyVal.str ks, ev) :: e2 :: t2) = _
            unfold encEntries
            simp only [encKey]
            rw [hcv, hct]
          · intro _
            have h2 := hlt (by simp)
            simp only [sizeE] at *
            simp only [List.length_append, List.length_cons]
            omega

/-! ### JSON round trip: dispatch helpers -/

theorem parseItemsNE_ws (f : Nat) (pre l : List Char) (h : ∀ c ∈ pre, isWsChar c = true) :
    parseItemsNE f (pre ++ l) = parseItemsNE f l := by
  cases f with
  | zero => rfl
  | succ g =>
    rw [parseItemsNE_step, parseItemsNE_step, parseVal_ws g pre l h]

theorem parseEntriesNE_ws (f : Nat) (pre l : List Char) (h : ∀ c ∈ pre, isWsChar c = true) :
    parseEntriesNE f (pre ++ l) = parseEntriesNE f l := by
  cases f with
  | zero => rfl
  | succ g =>
    rw [parseEntriesNE_step, parseEntriesNE_step, skipWs_append_ws pre l h]

theorem numBoundary_rbracket (t : List Char) : numBoundary (']' :: t) :=
  ⟨by decide, by decide, by decide, by decide⟩

theorem numBoundary_comma (t : List Char) : numBoundary (',' :: t) :=
  ⟨by decide, by decide, by decide, by decide⟩

theorem numBoundary_rcb (t : List Char) : numBoundary (rcb :: t) :=
  ⟨by decide, by decide, by decide, by decide⟩

theorem encVal_head (v : PyVal) (cs : List Char) (h : encVal v = Except.ok cs) :
    ∃ c t, cs = c :: t ∧ isWsChar c = false ∧ ¬ c = ']' ∧ ¬ c = rcb := by
  cases v with
  | none =>
    have hcs : "null".data = cs := Except.ok.inj h
    exact ⟨'n', ['u', 'l', 'l'], hcs.symm, by decide, by decide, by decide⟩
  | bool b =>
    cases b with
    | true =>
      have hcs : "true".data = cs := Except.ok.inj h
      exact ⟨'t', ['r', 'u', 'e'], hcs.symm, by decide, by decide, by decide⟩
    | false =>
      have hcs : "false".data = cs := Except.ok.inj h
      exact ⟨'f', ['a', 'l', 's', 'e'], hcs.symm, by decide, by decide, by decide⟩
  | int i =>
    have hcs : encInt i = cs := Except.ok.inj h
    subst hcs
    by_cases hi : i < 0
    · refine ⟨'-', encNat i.natAbs, by simp [encInt, hi], by decide, by decide, by decide⟩
    · obtain ⟨c, t, hct, hc⟩ := encNat_head_digit i.natAbs
      refine ⟨c, t, ?_, isDigitCh_not_ws c hc, ?_, ?_⟩
      · rw [show encInt i = encNat i.natAbs by simp [encInt, hi], hct]
      · intro hcon
        subst hcon
        exact absurd hc (by decide)
      · intro hcon
        subst hcon
        exact absurd hc (by decide)
  | str s =>
    have hcs : encStr s = cs := Except.ok.inj h
    subst hcs
    exact ⟨qc, _, rfl, by decide, by decide, by decide⟩
  | list xs =>
    cases hxs : encItems xs with
    | ok body =>
      have hcs : '[' :: body ++ [']'] = cs := by
        unfold encVal at h
        rw [hxs] at h
        exact Except.ok.inj h
      subst hcs
      exact ⟨'[', _, rfl, by decide, by decide, by decide⟩
    | error e =>
      exfalso
      unfold encVal at h
      rw [hxs] at h
      exact Except.noConfusion h
  | dict es =>
    cases hes : encEntries es with
    | ok body =>
      have hcs : lcb :: body ++ [rcb] = cs := by
        unfold encVal at h
        rw [hes] at h
        exact Except.ok.inj h
      subst hcs
      exact ⟨lcb, _, rfl, by decide, by decide, by decide⟩
    | error e =>
      exfalso
      unfold encVal at h
      rw [hes] at h
      exact Except.noConfusion h

/-! ### JSON round trip: the main induction -/

theorem parse_enc : ∀ (f : Nat),
    (∀ v cs rest, jsonableV v = true → encVal v = Except.ok cs → sizeV v ≤ f →
      numBoundary rest → parseVal f (cs ++ rest) = some (v, rest)) ∧
    (∀ xs cs rest, xs ≠ [] → jsonableL xs = true → encItems xs = Except.ok cs →
      sizeL xs ≤ f → parseItemsNE f (cs ++ ']' :: rest) = some (xs, rest)) ∧
    (∀ es cs rest, es ≠ [] → entriesOk es = true → jsonableE es = true →
      encEntries es = Except.ok cs → sizeE es ≤ f →
      parseEntriesNE f (cs ++ rcb :: rest) = some (es, rest)) := by
  intro f
  induction f with
  | zero =>
    refine ⟨fun v _ _ _ _ hsz _ => absurd hsz ?_, fun xs _ _ hne _ _ hsz => ?_, fun es _ _ hne _ _ _ hsz => ?_⟩
    · cases v <;> · show ¬ _ ≤ 0; simp [sizeV]
    · exfalso
      cases xs with
      | nil => exact hne rfl
      | cons x t =>
        have h2 : sizeL (x :: t) = 1 + sizeV x + sizeL t := rfl
        omega
    · exfalso
      cases es with
      | nil => exact hne rfl
      | cons e t =>
        obtain ⟨ek, ev⟩ := e
        have h2 : sizeE ((ek, ev) :: t) = 1 + sizeV ev + sizeE t := rfl
        omega
  | succ f ih =>
    obtain ⟨ihP, ihQ, ihR⟩ := ih
    have hP : ∀ v cs rest, jsonableV v = true → encVal v = Except.ok cs →
        sizeV v ≤ f + 1 → numBoundary rest →
        parseVal (f + 1) (cs ++ rest) = some (v, rest) := by
      intro v cs rest hj henc hsz hb
      cases v with
      | none =>
        have hcs : "null".data = cs := Except.ok.inj henc
        subst hcs
        exact parseVal_null f rest
      | bool b =>
        cases b with
        | true =>
          have hcs : "true".data = cs := Except.ok.inj henc
          subst hcs
          exact parseVal_true f rest
        | false =>
          have hcs : "false".data = cs := Except.ok.inj henc
          subst hcs
          exact parseVal_false f rest
      | int i =>
        have hcs : encInt i = cs := Except.ok.inj henc
        subst hcs
        by_cases hi : i < 0
        · rw [show encInt i = '-' :: encNat i.natAbs by simp [encInt, hi]]
          rw [List.cons_append, parseVal_minus]
          rw [← List.cons_append, ← show encInt i = '-' :: encNat i.natAbs by simp [encInt, hi]]
          rw [parseIntJson_encInt i rest hb]
          rfl
        · obtain ⟨c, t, hct, hc⟩ := encNat_head_digit i.natAbs
          have henc2 : encInt i = encNat i.natAbs := by simp [encInt, hi]
          rw [henc2, hct, List.cons_append, parseVal_headDigit f c _ hc]
          rw [← List.cons_append, ← hct, ← henc2]
          rw [parseIntJson_encInt i rest hb]
          rfl
      | str s =>
        have hcs : encStr s = cs := Except.ok.inj henc
        subst hcs
        exact parseVal_encStr f s rest
      | list xs =>
        cases hxs : encItems xs with
        | error e =>
          exfalso
          unfold encVal at henc
          rw [hxs] at henc
          exact Except.noConfusion henc
        | ok body =>
          have hcs : '[' :: body ++ [']'] = cs := by
            unfold encVal at henc
            rw [hxs] at henc
            exact Except.ok.inj henc
          subst hcs
          cases xs with
          | nil =>
            have hbody : body = [] := by
              have : Except.ok ([] : List Char) = Except.ok body := hxs
              exact (Except.ok.inj this).symm
            subst hbody
            show parseVal (f + 1) ('[' :: (']' :: rest)) = _
            rw [parseVal_lbracket]
            rw [skipWs_cons_not_ws ']' rest (by decide)]
            simp
          | cons x t =>
            have hjl : jsonableL (x :: t) = true := by simpa [jsonableV] using hj
            have hszl : sizeL (x :: t) ≤ f := by
              have h2 : sizeV (PyVal.list (x :: t)) = 1 + sizeL (x :: t) := rfl
              omega
            have hbe : ∃ cx, encVal x = Except.ok cx := by
              cases henc2 : encVal x with
              | ok cx => exact ⟨cx, rfl⟩
              | error e =>
                exfalso
                cases t with
                | nil =>
                  rw [show encItems [x] = encVal x from rfl, henc2] at hxs
                  exact Except.noConfusion hxs
                | cons y t2 =>
                  unfold encItems at hxs
                  cases het : encItems (y :: t2) with
                  | ok ct =>
                    rw [henc2, het] at hxs
                    exact Except.noConfusion hxs
                  | error e2 =>
                    rw [henc2, het] at hxs
                    exact Except.noConfusion hxs
            obtain ⟨cx, hcx⟩ := hbe
            obtain ⟨c0, t0, hct0, hws0, hnb0, _⟩ := encVal_head x cx hcx
            have hbody : ∃ brest, body = c0 :: brest := by
              cases t with
              | nil =>
                rw [show encItems [x] = encVal x from rfl, hcx] at hxs
                exact ⟨t0, by rw [← (Except.ok.inj hxs), hct0]⟩
              | cons y t2 =>
                unfold encItems at hxs
                rw [hcx] at hxs
                cases hit : encItems (y :: t2) with
                | ok ct =>
                  rw [hit] at hxs
                  exact ⟨t0 ++ ',' :: ' ' :: ct, by rw [← (Except.ok.inj hxs), hct0]; rfl⟩
                | error e =>
                  rw [hit] at hxs
                  exact Except.noConfusion hxs
            obtain ⟨brest, hbrest⟩ := hbody
            rw [List.append_assoc]
            show parseVal (f + 1) ('[' :: (body ++ ']' :: rest)) = _
            rw [parseVal_lbracket]
            rw [hbrest, List.cons_append, skipWs_cons_not_ws c0 _ hws0]
            simp only []
            rw [if_neg hnb0]
            rw [← List.cons_append, ← hbrest]
            rw [ihQ (x :: t) body rest (by simp) hjl hxs hszl]
            rfl
      | dict es =>
        cases hes : encEntries es with
        | error e =>
          exfalso
          unfold encVal at henc
          rw [hes] at henc
          exact Except.noConfusion henc
        | ok body =>
          have hcs : lcb :: body ++ [rcb] = cs := by
            unfold encVal at henc
            rw [hes] at henc
            exact Except.ok.inj henc
          subst hcs
          have hok : entriesOk es = true := by
            simp only [jsonableV, Bool.and_eq_true] at hj
            exact hj.1
          have hje : jsonableE es = true := by
            simp only [jsonableV, Bool.and_eq_true] at hj
            exact hj.2
          cases es with
          | nil =>
            have hbody : body = [] := by
              have : Except.ok ([] : List Char) = Except.ok body := hes
              exact (Except.ok.inj this).symm
            subst hbody
            show parseVal (f + 1) (lcb :: (rcb :: rest)) = _
            rw [parseVal_lcb]
            rw [skipWs_cons_not_ws rcb rest (by decide)]
            simp
          | cons e t =>
            obtain ⟨ek, ev⟩ := e
            obtain ⟨ks, rfl⟩ : ∃ ks, ek = PyVal.str ks := by
              cases ek with
              | str s => exact ⟨s, rfl⟩
              | none => simp [entriesOk] at hok
              | bool b => simp [entriesOk] at hok
              | int n => simp [entriesOk] at hok
              | list l => simp [entriesOk] at hok
              | dict d => simp [entriesOk] at hok
            have hsze : sizeE ((PyVal.str ks, ev) :: t) ≤ f := by
              have h2 : sizeV (PyVal.dict ((PyVal.str ks, ev) :: t)) =
                  1 + sizeE ((PyVal.str ks, ev) :: t) := rfl
              omega
            have hbody : ∃ brest, body = qc :: brest := by
              cases t with
              | nil =>
                unfold encEntries at hes
                simp only [encKey] at hes
                cases hev : encVal ev with
                | ok cv =>
                  rw [hev] at hes
                  exact ⟨_, by rw [← (Except.ok.inj hes)]; rfl⟩
                | error e2 =>
                  rw [hev] at hes
                  exact Except.noConfusion hes
              | cons e2 t2 =>
                unfold encEntries at hes
                simp only [encKey] at hes
                cases hev : encVal ev with
                | ok cv =>
                  rw [hev] at hes
                  cases het : encEntries (e2 :: t2) with
                  | ok ct =>
                    rw [het] at hes
                    exact ⟨_, by rw [← (Except.ok.inj hes)]; rfl⟩
                  | error e3 =>
                    rw [het] at hes
                    exact Except.noConfusion hes
                | error ex =>
                  cases het : encEntries (e2 :: t2) with
                  | ok ct =>
                    rw [hev, het] at hes
                    exact Except.noConfusion hes
                  | error e3 =>
                    rw [hev, het] at hes
                    exact Except.noConfusion hes
            obtain ⟨brest, hbrest⟩ := hbody
            rw [List.append_assoc]
            show parseVal (f + 1) (lcb :: (body ++ rcb :: rest)) = _
            rw [parseVal_lcb]
            rw [hbrest, List.cons_append, skipWs_cons_not_ws qc _ (by decide)]
            simp only []
            rw [if_neg (by decide : ¬ qc = rcb)]
            rw [← List.cons_append, ← hbrest]
            rw [ihR ((PyVal.str ks, ev) :: t) body rest (by simp) hok hje hes hsze]
            simp only [Option.map_some']
            rw [dictOfPairs_eq ((PyVal.str ks, ev) :: t) hok]
    refine ⟨hP, ?_, ?_⟩
    · -- parseItemsNE
      intro xs cs rest hne hj henc hsz
      cases xs with
      | nil => exact absurd rfl hne
      | cons x t =>
        have hjx : jsonableV x = true := by
          simp only [jsonableL, Bool.and_eq_true] at hj
          exact hj.1
        have hjt : jsonableL t = true := by
          simp only [jsonableL, Bool.and_eq_true] at hj
          exact hj.2
        have hszx : sizeV x ≤ f := by
          have h2 : sizeL (x :: t) = 1 + sizeV x + sizeL t := rfl
          omega
        cases t with
        | nil =>
          have hcx : encVal x = Except.ok cs := by
            rw [show encItems [x] = encVal x from rfl] at henc
            exact henc
          rw [parseItemsNE_step]
          rw [ihP x cs (']' :: rest) hjx hcx hszx (numBoundary_rbracket rest)]
          simp only []
          rw [skipWs_cons_not_ws ']' rest (by decide)]
          simp
        | cons y t2 =>
          cases hcx : encVal x with
          | error e =>
            exfalso
            unfold encItems at henc
            cases het : encItems (y :: t2) with
            | ok ct =>
              rw [hcx, het] at henc
              exact Except.noConfusion henc
            | error e2 =>
              rw [hcx, het] at henc
              exact Except.noConfusion henc
          | ok cx =>
            cases hct : encItems (y :: t2) with
            | error e =>
              exfalso
              unfold encItems at henc
              rw [hcx, hct] at henc
              exact Except.noConfusion henc
            | ok ct =>
              have hcs : cx ++ ',' :: ' ' :: ct = cs := by
                unfold encItems at henc
                rw [hcx, hct] at henc
                exact Except.ok.inj henc
              subst hcs
              have hszt : sizeL (y :: t2) ≤ f := by
                have h2 : sizeL (x :: y :: t2) = 1 + sizeV x + sizeL (y :: t2) := rfl
                omega
              rw [parseItemsNE_step]
              rw [List.append_assoc, List.cons_append, List.cons_append]
              rw [ihP x cx (',' :: ' ' :: (ct ++ ']' :: rest)) hjx hcx hszx
                (numBoundary_comma _)]
              simp only []
              rw [skipWs_cons_not_ws ',' _ (by decide)]
              simp only []
              rw [if_pos trivial]
              rw [show (' ' :: (ct ++ ']' :: rest)) = [' '] ++ (ct ++ ']' :: rest) from rfl]
              rw [parseItemsNE_ws f [' '] _ (by intro c hc; simp at hc; subst hc; rfl)]
              rw [ihQ (y :: t2) ct rest (by simp) hjt hct hszt]
              rfl
    · -- parseEntriesNE
      intro es cs rest hne hok hje henc hsz
      cases es with
      | nil => exact absurd rfl hne
      | cons e t =>
        obtain ⟨ek, ev⟩ := e
        obtain ⟨ks, rfl⟩ : ∃ ks, ek = PyVal.str ks := by
          cases ek with
          | str s => exact ⟨s, rfl⟩
          | none => simp [entriesOk] at hok
          | bool b => simp [entriesOk] at hok
          | int n => simp [entriesOk] at hok
          | list l => simp [entriesOk] at hok
          | dict d => simp [entriesOk] at hok
        have hjv : jsonableV ev = true := by
          simp only [jsonableE, Bool.and_eq_true] at hje
          exact hje.1
        have hjt : jsonableE t = true := by
          simp only [jsonableE, Bool.and_eq_true] at hje
          exact hje.2
        have hokt : entriesOk t = true := by
          simp only [entriesOk, Bool.and_eq_true] at hok
          exact hok.2
        have hszv : sizeV ev ≤ f := by
          have h2 : sizeE ((PyVal.str ks, ev) :: t) = 1 + sizeV ev + sizeE t := rfl
          omega
        cases t with
        | nil =>
          cases hev : encVal ev with
          | error e2 =>
            exfalso
            unfold encEntries at henc
            simp only [encKey] at henc
            rw [hev] at henc
            exact Except.noConfusion henc
          | ok cv =>
            have hcs : encStr ks ++ ':' :: ' ' :: cv = cs := by
              unfold encEntries at henc
              simp only [encKey] at henc
              rw [hev] at henc
              exact Except.ok.inj henc
            subst hcs
            rw [parseEntriesNE_step]
            rw [show (encStr ks ++ ':' :: ' ' :: cv) ++ rcb :: rest =
              qc :: ((ks.foldr (fun c acc => encChar c ++ acc) [qc]) ++
                (':' :: ' ' :: cv ++ rcb :: rest)) from by simp [encStr]]
            rw [skipWs_cons_not_ws qc _ (by decide)]
            simp only []
            first
              | rw [if_pos trivial]
              | rw [if_pos rfl]
            rw [parseStrBody_enc ks _ (by
              have h1 := encStrFold_length ks
              simp only [List.length_append]
              omega) _]
            simp only []
            rw [show (':' :: ' ' :: cv) ++ rcb :: rest = ':' :: ' ' :: (cv ++ rcb :: rest) from rfl]
            rw [skipWs_cons_not_ws ':' (' ' :: (cv ++ rcb :: rest)) (by decide)]
            simp only []
            first
              | rw [if_pos trivial]
              | rw [if_pos rfl]
            rw [show (' ' :: (cv ++ rcb :: rest)) = [' '] ++ (cv ++ rcb :: rest) from rfl]
            rw [parseVal_ws f [' '] _ (by intro c hc; simp at hc; subst hc; rfl)]
            rw [ihP ev cv (rcb :: rest) hjv hev hszv (numBoundary_rcb rest)]
            simp only []
            rw [skipWs_cons_not_ws rcb rest (by decide)]
            simp only []
            first
              | rw [if_pos trivial]
              | rw [if_pos rfl]
        | cons e2 t2 =>
          cases hev : encVal ev with
          | error e3 =>
            exfalso
            unfold encEntries at henc
            simp only [encKey] at henc
            cases het : encEntries (e2 :: t2) with
            | ok ct => rw [hev, het] at henc; exact Except.noConfusion henc
            | error e4 => rw [hev, het] at henc; exact Except.noConfusion henc
          | ok cv =>
            cases het : encEntries (e2 :: t2) with
            | error e3 =>
              exfalso
              unfold encEntries at henc
              simp only [encKey] at henc
              rw [hev, het] at henc
              exact Except.noConfusion henc
            | ok ct =>
              have hcs : encStr ks ++ ':' :: ' ' :: cv ++ ',' :: ' ' :: ct = cs := by
                unfold encEntries at henc
                simp only [encKey] at henc
                rw [hev, het] at henc
                exact Except.ok.inj henc
              subst hcs
              have hszt : sizeE (e2 :: t2) ≤ f := by
                obtain ⟨k2, v2⟩ := e2
                have h2 : sizeE ((PyVal.str ks, ev) :: (k2, v2) :: t2) =
                    1 + sizeV ev + sizeE ((k2, v2) :: t2) := rfl
                omega
              rw [parseEntriesNE_step]
              rw [show (encStr ks ++ ':' :: ' ' :: cv ++ ',' :: ' ' :: ct) ++ rcb :: rest =
                qc :: ((ks.foldr (fun c acc => encChar c ++ acc) [qc]) ++
                  (':' :: ' ' :: (cv ++ ',' :: ' ' :: (ct ++ rcb :: rest)))) from by
                simp [encStr]]
              rw [skipWs_cons_not_ws qc _ (by decide)]
              simp only []
              first
                | rw [if_pos trivial]
                | rw [if_pos rfl]
              rw [parseStrBody_enc ks _ (by
                have h1 := encStrFold_length ks
                simp only [List.length_append]
                omega) _]
              simp only []
              rw [skipWs_cons_not_ws ':' _ (by decide)]
              simp only []
              first
                | rw [if_pos trivial]
                | rw [if_pos rfl]
              rw [show (' ' :: (cv ++ ',' :: ' ' :: (ct ++ rcb :: rest))) =
                [' '] ++ (cv ++ ',' :: ' ' :: (ct ++ rcb :: rest)) from rfl]
              rw [parseVal_ws f [' '] _ (by intro c hc; simp at hc; subst hc; rfl)]
              rw [ihP ev cv (',' :: ' ' :: (ct ++ rcb :: rest)) hjv hev hszv
                (numBoundary_comma _)]
              simp only []
              rw [skipWs_cons_not_ws ',' _ (by decide)]
              simp only []
              rw [if_neg (by decide : ¬ ',' = rcb)]
              first
                | rw [if_pos trivial]
                | rw [if_pos rfl]
              rw [show (' ' :: (ct ++ rcb :: rest)) = [' '] ++ (ct ++ rcb :: rest) from rfl]
              rw [parseEntriesNE_ws f [' '] _ (by intro c hc; simp at hc; subst hc; rfl)]
              rw [ihR (e2 :: t2) ct rest (by simp) hokt hjt het hszt]
              rfl

/-- `json.loads` inverts `json.dumps` on every jsonable value. -/
theorem loads_dumps (v : PyVal) (h : jsonableV v = true) :
    ∃ cs, dumps v = Except.ok cs ∧ loads cs = Except.ok v := by
  obtain ⟨cs, henc, hsz⟩ := (enc_ok_bound (sizeV v)).1 v (le_refl _) h
  refine ⟨cs, henc, ?_⟩
  have hp : parseVal (cs.length + 1) (cs ++ []) = some (v, []) :=
    (parse_enc (cs.length + 1)).1 v cs [] h henc (by omega) trivial
  rw [List.append_nil] at hp
  unfold loads
  rw [hp]
  rfl

theorem exec_scenario_select (db : DBState) (u p sn : List Char) (sd : List Char)
    (hf : db.scenarios.filter
        (fun r => r.username == u && r.project_name == p && r.scenario_name == sn)
      = [(⟨u, p, sn, sd⟩ : ScenarioRow)]) :
    execute_turso_query healthyGW db
      "SELECT scenario_data FROM scenarios WHERE username = ? AND project_name = ? AND scenario_name = ?"
      (some [PyVal.str u, PyVal.str p, PyVal.str sn]) FetchMode.one
    = (db, Except.ok (QueryResult.one [(pstr "scenario_data", PyVal.str sd)])) := by
  have hsend : healthyGW.send db
      ⟨"SELECT scenario_data FROM scenarios WHERE username = ? AND project_name = ? AND scenario_name = ?",
       some [PyVal.str u, PyVal.str p, PyVal.str sn]⟩
    = (db, selResp ["scenario_data"]
        ((db.scenarios.filter
            (fun r => r.username == u && r.project_name == p && r.scenario_name == sn)).map
          (fun r => [PyVal.str r.scenario_data]))) := rfl
  simp only [execute_turso_query]
  rw [hsend, hf]
  rfl

theorem save_scenario_healthy (db : DBState) (u p sn : List Char) (data : PyVal)
    (dj : List Char) (hd : dumps data = Except.ok dj) :
    (save_scenario healthyGW db u p sn data).2 = Except.ok () ∧
    (save_scenario healthyGW db u p sn data).1.scenarios =
      (db.scenarios.filter
        (fun r => !(r.username == u && r.project_name == p && r.scenario_name == sn)))
      ++ [(⟨u, p, sn, dj⟩ : ScenarioRow)] := by
  simp only [save_scenario, execute_turso_query, hd]
  have hsend1 : healthyGW.send db
      ⟨"INSERT OR IGNORE INTO projects (username, project_name) VALUES (?, ?)",
       some [PyVal.str u, PyVal.str p]⟩
    = ((if db.projects.any (fun pr => pr.1 == u && pr.2 == p) then db
        else { db with projects := db.projects ++ [(u, p)] }), okEmptyResp) :=
    healthy_project_upsert db u p
  rw [hsend1]
  have hsend2 : ∀ (db1 : DBState), healthyGW.send db1
      ⟨"INSERT OR REPLACE INTO scenarios (username, project_name, scenario_name, scenario_data) VALUES (?, ?, ?, ?)",
       some [PyVal.str u, PyVal.str p, PyVal.str sn, PyVal.str dj]⟩
    = ({ db1 with scenarios :=
          (db1.scenarios.filter
            (fun r => !(r.username == u && r.project_name == p && r.scenario_name == sn)))
          ++ [⟨u, p, sn, dj⟩] }, okEmptyResp) := fun db1 => healthy_scenario_replace db1 u p sn dj
  rw [hsend2]
  cases hc : db.projects.any (fun pr => pr.1 == u && pr.2 == p) with
  | true => simp only [hc, if_true]; exact ⟨trivial, trivial⟩
  | false => simp only [hc, Bool.false_eq_true, if_false]; exact ⟨trivial, trivial⟩

theorem load_scenario_healthy (db : DBState) (u p sn sd : List Char)
    (hf : db.scenarios.filter
        (fun r => r.username == u && r.project_name == p && r.scenario_name == sn)
      = [(⟨u, p, sn, sd⟩ : ScenarioRow)]) :
    (load_scenario healthyGW db u p sn).2 =
      match loads sd with
      | .ok v => Except.ok (some v)
      | .error e => Except.error e := by
  simp only [load_scenario]
  rw [exec_scenario_select db u p sn sd hf]
  rfl

/-- C6 (corrected): for data that is JSON-serialisable with string dict keys
throughout (`jsonableV`), `save_scenario` against a healthy store followed by
`load_scenario` of the same key returns a value deep-equal (indeed equal) to
the saved data. Non-string dict keys break the round trip (see the
counterexample). -/
theorem scenario_roundtrip (db : DBState) (u p sn : List Char) (data : PyVal)
    (h : jsonableV data = true) :
    (save_scenario healthyGW db u p sn data).2 = Except.ok () ∧
    (load_scenario healthyGW (save_scenario healthyGW db u p sn data).1 u p sn).2 =
      Except.ok (some data) := by
  obtain ⟨dj, hd, hl⟩ := loads_dumps data h
  obtain ⟨hok, hsc⟩ := save_scenario_healthy db u p sn data dj hd
  refine ⟨hok, ?_⟩
  have hf : ((save_scenario healthyGW db u p sn data).1.scenarios).filter
      (fun r => r.username == u && r.project_name == p && r.scenario_name == sn)
    = [(⟨u, p, sn, dj⟩ : ScenarioRow)] := by
    rw [hsc]; exact filter_key_of_replaced db.scenarios u p sn dj
  rw [load_scenario_healthy _ u p sn dj hf, hl]

/-- Witness for C6 at a concrete nested value. -/
theorem scenario_roundtrip_witness :
    jsonableV (PyVal.dict [(pstr "k", PyVal.list [PyVal.int 1, pstr "x"])]) = true ∧
    ((save_scenario healthyGW emptyDB ['u'] ['p'] ['s']
        (PyVal.dict [(pstr "k", PyVal.list [PyVal.int 1, pstr "x"])])).2 = Except.ok () ∧
     (load_scenario healthyGW
        (save_scenario healthyGW emptyDB ['u'] ['p'] ['s']
          (PyVal.dict [(pstr "k", PyVal.list [PyVal.int 1, pstr "x"])])).1
        ['u'] ['p'] ['s']).2 =
      Except.ok (some (PyVal.dict [(pstr "k", PyVal.list [PyVal.int 1, pstr "x"])]))) :=
  ⟨rfl, scenario_roundtrip emptyDB ['u'] ['p'] ['s']
    (PyVal.dict [(pstr "k", PyVal.list [PyVal.int 1, pstr "x"])]) rfl⟩

/-- C6 counterexample: saving a mapping with the integer key 1 and loading
it back yields the mapping with the STRING key "1" (`json.dumps` coerces
non-string keys), which is not deep-equal to the saved data. -/
theorem scenario_roundtrip_counterexample :
    (load_scenario healthyGW
        (save_scenario healthyGW emptyDB ['u'] ['p'] ['s']
          (PyVal.dict [(PyVal.int 1, pstr "a")])).1 ['u'] ['p'] ['s']).2
      = Except.ok (some (PyVal.dict [(pstr "1", pstr "a")])) ∧
    pyEqFuel 8 (PyVal.dict [(pstr "1", pstr "a")]) (PyVal.dict [(PyVal.int 1, pstr "a")])
      = false ∧
    PyVal.dict [(pstr "1", pstr "a")] ≠ PyVal.dict [(PyVal.int 1, pstr "a")] := by
  refine ⟨rfl, rfl, ?_⟩
  intro hcongr
  simp [pstr] at hcongr

/-- Witness for C4 at one concrete non-empty row list. -/
theorem missing_columns_silent_empty_witness :
    [PyVal.list [PyVal.int 7]] ≠ ([] : List PyVal) ∧
    (decodeResponse (missingColsResp [PyVal.list [PyVal.int 7]]) FetchMode.one =
        Except.ok (QueryResult.one []) ∧
      decodeResponse (missingColsResp [PyVal.list [PyVal.int 7]]) FetchMode.all =
        Except.ok (QueryResult.many ([PyVal.list [PyVal.int 7]].map (fun _ => []))) ∧
      (execute_turso_query
        (constGW (HttpOutcome.resp 200 (RespBody.json (missingColsResp [PyVal.list [PyVal.int 7]]))))
        () "SELECT scenario_name FROM scenarios WHERE username = ? AND project_name = ?"
        (some [pstr "u", pstr "p"]) FetchMode.one).2 = Except.ok (QueryResult.one [])) :=
  ⟨by simp, missing_columns_silent_empty [PyVal.list [PyVal.int 7]] (by simp)⟩

/-- Witness for C7 at a concrete fluid inserted into the empty store. -/
theorem add_fluid_then_get_user_fluids_witness :
    emptyDB.fluids.any
      (fun r => r.username == "maria".data && r.fluid_name == "glycol".data) = false ∧
    ((add_user_fluid healthyGW emptyDB "maria".data "glycol".data
        (PyVal.int 1050) (PyVal.int 2) (PyVal.int 3)).2 = Except.ok true ∧
     ∃ m, (get_user_fluids healthyGW
          (add_user_fluid healthyGW emptyDB "maria".data "glycol".data
            (PyVal.int 1050) (PyVal.int 2) (PyVal.int 3)).1 "maria".data).2 =
        Except.ok m ∧
      dictFind m (PyVal.str "glycol".data) =
        some (PyVal.dict [(pstr "rho", PyVal.int 1050), (pstr "nu", PyVal.int 2),
                          (pstr "pv_kpa", PyVal.int 3)])) :=
  ⟨rfl, add_fluid_then_get_user_fluids emptyDB "maria".data "glycol".data
    (PyVal.int 1050) (PyVal.int 2) (PyVal.int 3) rfl⟩

/-- Witness for C8 at a concrete scenario value. -/
theorem save_scenario_two_writes_witness :
    dumps (PyVal.int 5) = Except.ok ['5'] ∧
    ((save_scenario (tracedGW healthyGW) (emptyDB, []) "u".data "p".data "s".data
        (PyVal.int 5)).2 = Except.ok () ∧
     (save_scenario (tracedGW healthyGW) (emptyDB, []) "u".data "p".data "s".data
        (PyVal.int 5)).1.2 =
      [] ++ [⟨"INSERT OR IGNORE INTO projects (username, project_name) VALUES (?, ?)",
              some [PyVal.str "u".data, PyVal.str "p".data]⟩,
             ⟨"INSERT OR REPLACE INTO scenarios (username, project_name, scenario_name, scenario_data) VALUES (?, ?, ?, ?)",
              some [PyVal.str "u".data, PyVal.str "p".data, PyVal.str "s".data,
                    PyVal.str ['5']]⟩] ∧
     ("u".data, "p".data) ∈
       (save_scenario (tracedGW healthyGW) (emptyDB, []) "u".data "p".data "s".data
         (PyVal.int 5)).1.1.projects ∧
     (save_scenario (tracedGW healthyGW) (emptyDB, []) "u".data "p".data "s".data
         (PyVal.int 5)).1.1.scenarios.filter
       (fun r => r.username == "u".data && r.project_name == "p".data &&
         r.scenario_name == "s".data) =
      [(⟨"u".data, "p".data, "s".data, ['5']⟩ : ScenarioRow)]) :=
  ⟨rfl, save_scenario_two_writes emptyDB [] "u".data "p".data "s".data
    (PyVal.int 5) ['5'] rfl⟩
